import Mathlib

/-!
Verification of the event-summary report aggregation engine.

Shallow embedding of `src/lib/reportGenerator.ts`, `src/lib/reportColumns.ts`
and the CSV exporter `generateCsv` of `src/components/ReportTable.svelte`.

Modelling choices:
* JavaScript `number` is embedded as `Int` (exact arithmetic, e.g. amounts in
  cents; all inputs are well-formed numbers by the parsing collaborator's
  contract, and the properties verified here concern additive aggregation,
  which IEEE-754 float semantics only approximates anyway).
* Optional string fields (`gateway`, `salesChannel`) are `Option String`;
  JavaScript truthiness of a string (`if (attendee.gateway)`) is captured by
  `presentVal`, which treats `none` and the empty string as absent.
* A JavaScript `Map` is embedded as an insertion-ordered association list:
  `smapSet` on an existing key updates the entry in place, otherwise appends,
  exactly like `Map.prototype.set`; `Array.from(map.keys())` is `smapKeys`.
* `localeCompare`-ascending sorting is embedded as sorting by Lean's total
  order on `String` (a fixed locale collation is some total order on strings;
  the algorithm is insertion sort, which is stable like `Array.prototype.sort`
  is on modern engines — stability is irrelevant here since keys are distinct).
* The display/CSV number formatters (`Intl.NumberFormat`, `toFixed(2)`,
  `String(value)` on a number) are parameters (`CsvFormatters`); none of the
  verified properties depend on the concrete digit strings they produce.
-/

inductive AttendeeStatus
  | Valid
  | Cancelled
deriving DecidableEq

/-- The 13 named numeric fee/earnings fields carried by every attendee record
and every aggregate bucket (`types.ts`). -/
structure NumericFields where
  humanitixPassedOnFees : Int
  humanitixAbsorbedFees : Int
  amexSurcharge : Int
  customTax : Int
  zipFeeAbsorbed : Int
  afterpayFeeAbsorbed : Int
  refunds : Int
  feeRebate : Int
  yourEarnings : Int
  refundedFees : Int
  discountRedeemed : Int
  taxOnSales : Int
  taxOnBookingFees : Int
deriving DecidableEq

/-- `initZeroNumericFields` of `reportGenerator.ts`. -/
def initZeroNumericFields : NumericFields :=
  { humanitixPassedOnFees := 0
    humanitixAbsorbedFees := 0
    amexSurcharge := 0
    customTax := 0
    zipFeeAbsorbed := 0
    afterpayFeeAbsorbed := 0
    refunds := 0
    feeRebate := 0
    yourEarnings := 0
    refundedFees := 0
    discountRedeemed := 0
    taxOnSales := 0
    taxOnBookingFees := 0 }

/-- `aggregateNumericFields` of `reportGenerator.ts`: adds the source record's
13 fee fields onto the target elementwise (it touches no other field). -/
def aggregateNumericFields (target source : NumericFields) : NumericFields :=
  { humanitixPassedOnFees := target.humanitixPassedOnFees + source.humanitixPassedOnFees
    humanitixAbsorbedFees := target.humanitixAbsorbedFees + source.humanitixAbsorbedFees
    amexSurcharge := target.amexSurcharge + source.amexSurcharge
    customTax := target.customTax + source.customTax
    zipFeeAbsorbed := target.zipFeeAbsorbed + source.zipFeeAbsorbed
    afterpayFeeAbsorbed := target.afterpayFeeAbsorbed + source.afterpayFeeAbsorbed
    refunds := target.refunds + source.refunds
    feeRebate := target.feeRebate + source.feeRebate
    yourEarnings := target.yourEarnings + source.yourEarnings
    refundedFees := target.refundedFees + source.refundedFees
    discountRedeemed := target.discountRedeemed + source.discountRedeemed
    taxOnSales := target.taxOnSales + source.taxOnSales
    taxOnBookingFees := target.taxOnBookingFees + source.taxOnBookingFees }

/-- `AttendeeRow` of `types.ts` (with the `salesChannel` field the report
generator reads on every record). -/
structure AttendeeRow where
  eventName : String
  eventDateTime : Option String := none
  ticketType : String
  paid : Int
  status : AttendeeStatus
  gateway : Option String := none
  salesChannel : Option String := none
  fees : NumericFields := initZeroNumericFields
deriving DecidableEq

/-- The accumulator shape shared by every row and breakdown-row kind: a
dimension key plus `totalPaid`, the two counts and the 13 fee fields. -/
structure Bucket where
  key : String
  totalPaid : Int
  validCount : Nat
  cancelledCount : Nat
  fees : NumericFields
deriving DecidableEq

/-- The all-zero bucket used by breakdown densification. -/
def zeroBucket (k : String) : Bucket :=
  { key := k, totalPaid := 0, validCount := 0, cancelledCount := 0
    fees := initZeroNumericFields }

/-- The bucket created on first contact with a key: the object literal
(`totalPaid: attendee.paid`, status-based counts, zeroed fee fields) followed
by the `aggregateNumericFields` call on the fresh bucket. -/
def newBucket (k : String) (a : AttendeeRow) : Bucket :=
  { key := k
    totalPaid := a.paid
    validCount := if a.status = AttendeeStatus.Valid then 1 else 0
    cancelledCount := if a.status = AttendeeStatus.Cancelled then 1 else 0
    fees := aggregateNumericFields initZeroNumericFields a.fees }

/-- The update applied to an existing bucket: `totalPaid += paid`, the
status-selected count `+= 1`, and `aggregateNumericFields`. -/
def Bucket.accumulate (b : Bucket) (a : AttendeeRow) : Bucket :=
  { key := b.key
    totalPaid := b.totalPaid + a.paid
    validCount := if a.status = AttendeeStatus.Valid then b.validCount + 1 else b.validCount
    cancelledCount := if a.status = AttendeeStatus.Valid then b.cancelledCount else b.cancelledCount + 1
    fees := aggregateNumericFields b.fees a.fees }

/-- Insertion-ordered string-keyed map (JavaScript `Map<string, α>`). -/
abbrev SMap (α : Type) : Type := List (String × α)

def smapGet {α : Type} (m : SMap α) (k : String) : Option α :=
  match m with
  | [] => none
  | (k', v) :: rest => if k' = k then some v else smapGet rest k

/-- `Map.prototype.set`: update in place if the key exists, else append. -/
def smapSet {α : Type} (m : SMap α) (k : String) (v : α) : SMap α :=
  match m with
  | [] => [(k, v)]
  | (k', v') :: rest => if k' = k then (k', v) :: rest else (k', v') :: smapSet rest k v

def smapKeys {α : Type} (m : SMap α) : List String := m.map (fun p => p.1)

def smapValues {α : Type} (m : SMap α) : List α := m.map (fun p => p.2)

/-- JavaScript truthiness of an optional string field: `null`/`undefined` and
the empty string are absent, any other string is present. -/
def presentVal (o : Option String) : Option String :=
  match o with
  | some s => if s = "" then none else some s
  | none => none

/-- Look up or create the bucket for `k` and fold the record into it
(the `existing ? update : create` pattern of every aggregation site). -/
def upsertBucket (m : SMap Bucket) (k : String) (a : AttendeeRow) : SMap Bucket :=
  match smapGet m k with
  | some b => smapSet m k (b.accumulate a)
  | none => smapSet m k (newBucket k a)

/-- Second-level update: get or create the inner map for the outer key, then
upsert the bucket for the inner key. -/
def upsertNested (m : SMap (SMap Bucket)) (ko ki : String) (a : AttendeeRow) : SMap (SMap Bucket) :=
  smapSet m ko (upsertBucket ((smapGet m ko).getD []) ki a)

/-- The nine accumulator maps built by the main loop of `generateReport`. -/
structure AggState where
  ticketTypeMap : SMap Bucket
  gatewayBreakdownMap : SMap (SMap Bucket)
  salesChannelBreakdownMapForTicket : SMap (SMap Bucket)
  gatewayMap : SMap Bucket
  ticketTypeBreakdownMap : SMap (SMap Bucket)
  salesChannelBreakdownMapForGateway : SMap (SMap Bucket)
  salesChannelMap : SMap Bucket
  ticketTypeBreakdownMapForSalesChannel : SMap (SMap Bucket)
  gatewayBreakdownMapForSalesChannel : SMap (SMap Bucket)

def initAggState : AggState :=
  { ticketTypeMap := []
    gatewayBreakdownMap := []
    salesChannelBreakdownMapForTicket := []
    gatewayMap := []
    ticketTypeBreakdownMap := []
    salesChannelBreakdownMapForGateway := []
    salesChannelMap := []
    ticketTypeBreakdownMapForSalesChannel := []
    gatewayBreakdownMapForSalesChannel := [] }

/-- One iteration of the main loop of `generateReport`, written per map: each
map is touched exactly under the guard the source nests it in (ticket type
unconditionally; the gateway group under `if (attendee.gateway)`; the sales
channel group under `if (attendee.salesChannel)`; the two cross breakdowns
under both guards). -/
def processAttendee (s : AggState) (a : AttendeeRow) : AggState :=
  { ticketTypeMap := upsertBucket s.ticketTypeMap a.ticketType a
    gatewayBreakdownMap :=
      match presentVal a.gateway with
      | some g => upsertNested s.gatewayBreakdownMap a.ticketType g a
      | none => s.gatewayBreakdownMap
    gatewayMap :=
      match presentVal a.gateway with
      | some g => upsertBucket s.gatewayMap g a
      | none => s.gatewayMap
    ticketTypeBreakdownMap :=
      match presentVal a.gateway with
      | some g => upsertNested s.ticketTypeBreakdownMap g a.ticketType a
      | none => s.ticketTypeBreakdownMap
    salesChannelBreakdownMapForGateway :=
      match presentVal a.gateway, presentVal a.salesChannel with
      | some g, some c => upsertNested s.salesChannelBreakdownMapForGateway g c a
      | _, _ => s.salesChannelBreakdownMapForGateway
    salesChannelBreakdownMapForTicket :=
      match presentVal a.salesChannel with
      | some c => upsertNested s.salesChannelBreakdownMapForTicket a.ticketType c a
      | none => s.salesChannelBreakdownMapForTicket
    salesChannelMap :=
      match presentVal a.salesChannel with
      | some c => upsertBucket s.salesChannelMap c a
      | none => s.salesChannelMap
    ticketTypeBreakdownMapForSalesChannel :=
      match presentVal a.salesChannel with
      | some c => upsertNested s.ticketTypeBreakdownMapForSalesChannel c a.ticketType a
      | none => s.ticketTypeBreakdownMapForSalesChannel
    gatewayBreakdownMapForSalesChannel :=
      match presentVal a.salesChannel, presentVal a.gateway with
      | some c, some g => upsertNested s.gatewayBreakdownMapForSalesChannel c g a
      | _, _ => s.gatewayBreakdownMapForSalesChannel }

/-- A primary report row: the bucket plus the optionally attached dense
breakdown arrays. Ticket-type rows use `gatewayBreakdown` and
`salesChannelBreakdown`; gateway rows use `ticketTypeBreakdown` and
`salesChannelBreakdown`; sales-channel rows use `ticketTypeBreakdown` and
`gatewayBreakdown`; the remaining field stays `none`. -/
structure ReportRow where
  bucket : Bucket
  gatewayBreakdown : Option (List Bucket) := none
  salesChannelBreakdown : Option (List Bucket) := none
  ticketTypeBreakdown : Option (List Bucket) := none
deriving DecidableEq

structure ReportData where
  eventName : String
  rows : List ReportRow
  gatewayRows : List ReportRow
  salesChannelRows : List ReportRow
deriving DecidableEq

/-- A kernel-computable decision procedure for the `String` order (the
library instance goes through `String.ltb`, whose iterator recursion the
kernel cannot unfold; comparing the character lists reduces). -/
def stringDecLe (a b : String) : Decidable (a ≤ b) :=
  decidable_of_iff (¬b.data < a.data) (not_lt.trans String.le_iff_toList_le.symm)

/-- `keys.sort((a, b) => a.localeCompare(b))`. -/
def localeSort (l : List String) : List String :=
  @List.insertionSort String (fun x y : String => x ≤ y) (fun x y => stringDecLe x y) l

/-- `values.sort((a, b) => a.key.localeCompare(b.key))`. -/
def sortByKey (l : List Bucket) : List Bucket :=
  @List.insertionSort Bucket (fun b1 b2 : Bucket => b1.key ≤ b2.key)
    (fun b1 b2 => stringDecLe b1.key b2.key) l

/-- Densification: one entry per global key, the stored bucket when present,
a freshly zeroed bucket otherwise. -/
def densify (globalKeys : List String) (inner : SMap Bucket) : List Bucket :=
  globalKeys.map (fun k => (smapGet inner k).getD (zeroBucket k))

/-- `if (breakdown.length > 0) row.breakdown = breakdown` — attach the array
only when non-empty, otherwise leave the field undefined. -/
def attachBreakdown (l : List Bucket) : Option (List Bucket) :=
  if l.length > 0 then some l else none

/-- The breakdown array a primary row with key `k` receives for one dimension:
densify that dimension's global sorted key list against the row's own inner
map (empty when the row has no inner map), attached only when non-empty. -/
def mkBreakdown (globalKeys : List String) (outer : SMap (SMap Bucket)) (k : String) :
    Option (List Bucket) :=
  attachBreakdown (densify globalKeys ((smapGet outer k).getD []))

/-- `generateReport` of `reportGenerator.ts`. -/
def generateReport (validAttendees cancelledAttendees : List AttendeeRow) : ReportData :=
  let eventName :=
    match validAttendees with
    | a :: _ => a.eventName
    | [] =>
      match cancelledAttendees with
      | a :: _ => a.eventName
      | [] => ""
  let allAttendees := validAttendees ++ cancelledAttendees
  let st := allAttendees.foldl processAttendee initAggState
  let allGateways := localeSort (smapKeys st.gatewayMap)
  let allTicketTypes := localeSort (smapKeys st.ticketTypeMap)
  let allSalesChannels := localeSort (smapKeys st.salesChannelMap)
  let rows := (sortByKey (smapValues st.ticketTypeMap)).map (fun b =>
    { bucket := b
      gatewayBreakdown := mkBreakdown allGateways st.gatewayBreakdownMap b.key
      salesChannelBreakdown :=
        mkBreakdown allSalesChannels st.salesChannelBreakdownMapForTicket b.key
      ticketTypeBreakdown := none })
  let gatewayRows := (sortByKey (smapValues st.gatewayMap)).map (fun b =>
    { bucket := b
      ticketTypeBreakdown := mkBreakdown allTicketTypes st.ticketTypeBreakdownMap b.key
      salesChannelBreakdown :=
        mkBreakdown allSalesChannels st.salesChannelBreakdownMapForGateway b.key
      gatewayBreakdown := none })
  let salesChannelRows := (sortByKey (smapValues st.salesChannelMap)).map (fun b =>
    { bucket := b
      ticketTypeBreakdown :=
        mkBreakdown allTicketTypes st.ticketTypeBreakdownMapForSalesChannel b.key
      gatewayBreakdown := mkBreakdown allGateways st.gatewayBreakdownMapForSalesChannel b.key
      salesChannelBreakdown := none })
  { eventName := eventName
    rows := rows
    gatewayRows := gatewayRows
    salesChannelRows := salesChannelRows }

/-- The value a column extractor reads off a bucket: the dimension key
(a string), a monetary amount, or a ticket count. -/
inductive CsvValue
  | str (s : String)
  | money (q : Int)
  | count (n : Nat)
deriving DecidableEq

/-- The external number renderers: `Intl.NumberFormat` currency display,
`Number.prototype.toFixed(2)`, and default `String(value)` on a number. -/
structure CsvFormatters where
  currencyDisplay : Int → String
  fixedTwo : Int → String
  numberToString : Int → String

/-- Lift a number renderer to a column formatter (the source formatters
receive the extracted value, which is a number for every formatted column). -/
def moneyFormatter (g : Int → String) : CsvValue → String :=
  fun v =>
    match v with
    | CsvValue.str s => s
    | CsvValue.money q => g q
    | CsvValue.count n => toString n

/-- Default stringification `String(value)`. -/
def defaultToString (f : CsvFormatters) : CsvValue → String :=
  fun v =>
    match v with
    | CsvValue.str s => s
    | CsvValue.money q => f.numberToString q
    | CsvValue.count n => toString n

/-- A column descriptor of `reportColumns.ts`: id, label, value extractor and
the optional display/CSV formatters. Extractors read bucket fields only, so
one `Bucket → CsvValue` function serves every row and breakdown-row shape. -/
structure ReportColumn where
  id : String
  label : String
  extractValue : Bucket → CsvValue
  formatValue : Option (CsvValue → String) := none
  csvFormatValue : Option (CsvValue → String) := none

def TICKET_TYPE_COLUMN : ReportColumn :=
  { id := "ticketType", label := "Ticket Type"
    extractValue := fun b => CsvValue.str b.key }

def GATEWAY_COLUMN : ReportColumn :=
  { id := "gateway", label := "Gateway"
    extractValue := fun b => CsvValue.str b.key }

def GATEWAY_BREAKDOWN_COLUMN : ReportColumn :=
  { id := "gateway", label := "Gateway"
    extractValue := fun b => CsvValue.str b.key }

def TICKET_TYPE_BREAKDOWN_COLUMN : ReportColumn :=
  { id := "ticketType", label := "Ticket Type"
    extractValue := fun b => CsvValue.str b.key }

def PAID_COLUMN (f : CsvFormatters) : ReportColumn :=
  { id := "totalPaid", label := "Paid"
    extractValue := fun b => CsvValue.money b.totalPaid
    formatValue := some (moneyFormatter f.currencyDisplay)
    csvFormatValue := some (moneyFormatter f.fixedTwo) }

def VALID_TICKETS_COLUMN : ReportColumn :=
  { id := "validCount", label := "Valid Tickets"
    extractValue := fun b => CsvValue.count b.validCount }

def CANCELLED_TICKETS_COLUMN : ReportColumn :=
  { id := "cancelledCount", label := "Cancelled Tickets"
    extractValue := fun b => CsvValue.count b.cancelledCount }

def HUMANITIX_PASSED_ON_FEES_COLUMN (f : CsvFormatters) : ReportColumn :=
  { id := "humanitixPassedOnFees", label := "Humanitix passed-on fees"
    extractValue := fun b => CsvValue.money b.fees.humanitixPassedOnFees
    formatValue := some (moneyFormatter f.currencyDisplay)
    csvFormatValue := some (moneyFormatter f.fixedTwo) }

def HUMANITIX_ABSORBED_FEES_COLUMN (f : CsvFormatters) : ReportColumn :=
  { id := "humanitixAbsorbedFees", label := "Humanitix absorbed fees"
    extractValue := fun b => CsvValue.money b.fees.humanitixAbsorbedFees
    formatValue := some (moneyFormatter f.currencyDisplay)
    csvFormatValue := some (moneyFormatter f.fixedTwo) }

def AMEX_SURCHARGE_COLUMN (f : CsvFormatters) : ReportColumn :=
  { id := "amexSurcharge", label := "Amex surcharge"
    extractValue := fun b => CsvValue.money b.fees.amexSurcharge
    formatValue := some (moneyFormatter f.currencyDisplay)
    csvFormatValue := some (moneyFormatter f.fixedTwo) }

def CUSTOM_TAX_COLUMN (f : CsvFormatters) : ReportColumn :=
  { id := "customTax", label := "Custom tax"
    extractValue := fun b => CsvValue.money b.fees.customTax
    formatValue := some (moneyFormatter f.currencyDisplay)
    csvFormatValue := some (moneyFormatter f.fixedTwo) }

def ZIP_FEE_ABSORBED_COLUMN (f : CsvFormatters) : ReportColumn :=
  { id := "zipFeeAbsorbed", label := "Zip fee(absorbed)"
    extractValue := fun b => CsvValue.money b.fees.zipFeeAbsorbed
    formatValue := some (moneyFormatter f.currencyDisplay)
    csvFormatValue := some (moneyFormatter f.fixedTwo) }

def AFTERPAY_FEE_ABSORBED_COLUMN (f : CsvFormatters) : ReportColumn :=
  { id := "afterpayFeeAbsorbed", label := "Afterpay fee(absorbed)"
    extractValue := fun b => CsvValue.money b.fees.afterpayFeeAbsorbed
    formatValue := some (moneyFormatter f.currencyDisplay)
    csvFormatValue := some (moneyFormatter f.fixedTwo) }

def REFUNDS_COLUMN (f : CsvFormatters) : ReportColumn :=
  { id := "refunds", label := "Refunds"
    extractValue := fun b => CsvValue.money b.fees.refunds
    formatValue := some (moneyFormatter f.currencyDisplay)
    csvFormatValue := some (moneyFormatter f.fixedTwo) }

def FEE_REBATE_COLUMN (f : CsvFormatters) : ReportColumn :=
  { id := "feeRebate", label := "Fee rebate"
    extractValue := fun b => CsvValue.money b.fees.feeRebate
    formatValue := some (moneyFormatter f.currencyDisplay)
    csvFormatValue := some (moneyFormatter f.fixedTwo) }

def YOUR_EARNINGS_COLUMN (f : CsvFormatters) : ReportColumn :=
  { id := "yourEarnings", label := "Your earnings"
    extractValue := fun b => CsvValue.money b.fees.yourEarnings
    formatValue := some (moneyFormatter f.currencyDisplay)
    csvFormatValue := some (moneyFormatter f.fixedTwo) }

def REFUNDED_FEES_COLUMN (f : CsvFormatters) : ReportColumn :=
  { id := "refundedFees", label := "Refunded fees"
    extractValue := fun b => CsvValue.money b.fees.refundedFees
    formatValue := some (moneyFormatter f.currencyDisplay)
    csvFormatValue := some (moneyFormatter f.fixedTwo) }

def DISCOUNT_REDEEMED_COLUMN (f : CsvFormatters) : ReportColumn :=
  { id := "discountRedeemed", label := "Discount redeemed"
    extractValue := fun b => CsvValue.money b.fees.discountRedeemed
    formatValue := some (moneyFormatter f.currencyDisplay)
    csvFormatValue := some (moneyFormatter f.fixedTwo) }

def TAX_ON_SALES_COLUMN (f : CsvFormatters) : ReportColumn :=
  { id := "taxOnSales", label := "Tax on sales"
    extractValue := fun b => CsvValue.money b.fees.taxOnSales
    formatValue := some (moneyFormatter f.currencyDisplay)
    csvFormatValue := some (moneyFormatter f.fixedTwo) }

def TAX_ON_BOOKING_FEES_COLUMN (f : CsvFormatters) : ReportColumn :=
  { id := "taxOnBookingFees", label := "Tax on booking fees"
    extractValue := fun b => CsvValue.money b.fees.taxOnBookingFees
    formatValue := some (moneyFormatter f.currencyDisplay)
    csvFormatValue := some (moneyFormatter f.fixedTwo) }

/-- The fixed 15-column metric block pushed after the key columns, in the
canonical order of the data model. -/
def dataColumns (f : CsvFormatters) : List ReportColumn :=
  [PAID_COLUMN f, VALID_TICKETS_COLUMN, CANCELLED_TICKETS_COLUMN,
   HUMANITIX_PASSED_ON_FEES_COLUMN f, HUMANITIX_ABSORBED_FEES_COLUMN f,
   AMEX_SURCHARGE_COLUMN f, CUSTOM_TAX_COLUMN f, ZIP_FEE_ABSORBED_COLUMN f,
   AFTERPAY_FEE_ABSORBED_COLUMN f, REFUNDS_COLUMN f, FEE_REBATE_COLUMN f,
   YOUR_EARNINGS_COLUMN f, REFUNDED_FEES_COLUMN f, DISCOUNT_REDEEMED_COLUMN f,
   TAX_ON_SALES_COLUMN f, TAX_ON_BOOKING_FEES_COLUMN f]

inductive PrimaryDimension
  | ticketType
  | gateway
deriving DecidableEq

/-- `getColumnsForView` of `reportColumns.ts`: primary key column, then the
breakdown key column when active, then the fixed metric block. -/
def getColumnsForView (f : CsvFormatters) (primaryDimension : PrimaryDimension)
    (hasBreakdown : Bool) : List ReportColumn :=
  (match primaryDimension with
   | PrimaryDimension.ticketType => [TICKET_TYPE_COLUMN]
   | PrimaryDimension.gateway => [GATEWAY_COLUMN])
  ++ (if hasBreakdown then
        match primaryDimension with
        | PrimaryDimension.ticketType => [GATEWAY_BREAKDOWN_COLUMN]
        | PrimaryDimension.gateway => [TICKET_TYPE_BREAKDOWN_COLUMN]
      else [])
  ++ dataColumns f

def getColumnValue (col : ReportColumn) (b : Bucket) : CsvValue :=
  col.extractValue b

/-- `formatColumnValueForCsv`: the CSV formatter when present, else the
display formatter, else default stringification. -/
def formatColumnValueForCsv (f : CsvFormatters) (col : ReportColumn) (b : Bucket) : String :=
  match col.csvFormatValue with
  | some g => g (getColumnValue col b)
  | none =>
    match col.formatValue with
    | some g => g (getColumnValue col b)
    | none => defaultToString f (getColumnValue col b)

/-- RFC4180-style escaping: quote and double embedded quotes when the field
contains a comma, quote or newline. -/
def escapeCsvField (s : String) : String :=
  if s.contains ',' || s.contains '"' || s.contains '\n' then
    "\"" ++ s.replace "\"" "\"\"" ++ "\""
  else s

/-- The `hasBreakdown` predicate of `ReportTable.svelte`. -/
def hasBreakdownFlag (primaryDimension : PrimaryDimension)
    (breakdownByGateway breakdownByTicketType : Bool) : Bool :=
  (primaryDimension == PrimaryDimension.ticketType && breakdownByGateway)
    || (primaryDimension == PrimaryDimension.gateway && breakdownByTicketType)

/-- `generateCsv` of `ReportTable.svelte`, as the list of emitted lines
(header first); the returned string joins them with a newline. -/
def generateCsvLines (f : CsvFormatters) (primaryDimension : PrimaryDimension)
    (breakdownByGateway breakdownByTicketType : Bool) (reportData : ReportData) :
    List String :=
  let hasBreakdown := hasBreakdownFlag primaryDimension breakdownByGateway breakdownByTicketType
  let currentColumns := getColumnsForView f primaryDimension hasBreakdown
  let header := String.intercalate "," ((currentColumns.map (fun c => c.label)).map escapeCsvField)
  let summaryLine := fun (row : ReportRow) =>
    String.intercalate ","
      (currentColumns.map (fun col => escapeCsvField (formatColumnValueForCsv f col row.bucket)))
  let body :=
    match primaryDimension with
    | PrimaryDimension.ticketType =>
      reportData.rows.flatMap (fun row =>
        match row.gatewayBreakdown with
        | some bd =>
          if hasBreakdown && bd.length > 0 then
            bd.map (fun gatewayRow =>
              String.intercalate ","
                (currentColumns.map (fun col =>
                  if col.id == "ticketType" then
                    escapeCsvField (formatColumnValueForCsv f col row.bucket)
                  else if col.id == "gateway" then
                    escapeCsvField (formatColumnValueForCsv f col gatewayRow)
                  else
                    escapeCsvField (formatColumnValueForCsv f col gatewayRow))))
          else [summaryLine row]
        | none => [summaryLine row])
    | PrimaryDimension.gateway =>
      reportData.gatewayRows.flatMap (fun row =>
        match row.ticketTypeBreakdown with
        | some bd =>
          if hasBreakdown && bd.length > 0 then
            bd.map (fun ticketTypeRow =>
              String.intercalate ","
                (currentColumns.map (fun col =>
                  if col.id == "gateway" then
                    escapeCsvField (formatColumnValueForCsv f col row.bucket)
                  else if col.id == "ticketType" then
                    escapeCsvField (formatColumnValueForCsv f col ticketTypeRow)
                  else
                    escapeCsvField (formatColumnValueForCsv f col ticketTypeRow))))
          else [summaryLine row]
        | none => [summaryLine row])
  header :: body

def generateCsv (f : CsvFormatters) (primaryDimension : PrimaryDimension)
    (breakdownByGateway breakdownByTicketType : Bool) (reportData : ReportData) : String :=
  String.intercalate "\n"
    (generateCsvLines f primaryDimension breakdownByGateway breakdownByTicketType reportData)

attribute [ext] NumericFields Bucket

theorem aggregateNumericFields_zero (x : NumericFields) :
    aggregateNumericFields initZeroNumericFields x = x := by
  ext <;> simp [aggregateNumericFields, initZeroNumericFields]

/-- Creating a fresh bucket from a record is the same as folding the record
into the all-zero bucket. -/
theorem newBucket_eq_accumulate (k : String) (a : AttendeeRow) :
    newBucket k a = (zeroBucket k).accumulate a := by
  cases h : a.status <;>
    ext <;>
      simp [newBucket, zeroBucket, Bucket.accumulate, aggregateNumericFields,
        initZeroNumericFields, h]

theorem accumulate_right_comm (b : Bucket) (a1 a2 : AttendeeRow) :
    (b.accumulate a1).accumulate a2 = (b.accumulate a2).accumulate a1 := by
  cases h1 : a1.status <;> cases h2 : a2.status <;>
    ext <;>
      simp [Bucket.accumulate, aggregateNumericFields, h1, h2] <;>
        ring

instance : RightCommutative Bucket.accumulate :=
  ⟨accumulate_right_comm⟩

theorem smapGet_smapSet_self {α : Type} (m : SMap α) (k : String) (v : α) :
    smapGet (smapSet m k v) k = some v := by
  induction m with
  | nil => simp [smapGet, smapSet]
  | cons p rest ih =>
    obtain ⟨k', v'⟩ := p
    by_cases h : k' = k <;> simp [smapGet, smapSet, h, ih]

theorem smapGet_smapSet_ne {α : Type} (m : SMap α) (k k' : String) (v : α)
    (h : k' ≠ k) : smapGet (smapSet m k v) k' = smapGet m k' := by
  have hkk : ¬k = k' := fun hh => h hh.symm
  induction m with
  | nil => simp [smapGet, smapSet, hkk]
  | cons p rest ih =>
    obtain ⟨k0, v0⟩ := p
    by_cases h0 : k0 = k
    · subst h0
      simp [smapGet, smapSet, hkk]
    · simp only [smapSet, if_neg h0]
      by_cases h1 : k0 = k' <;> simp [smapGet, h1, ih]

theorem smapGet_eq_none_iff {α : Type} (m : SMap α) (k : String) :
    smapGet m k = none ↔ k ∉ smapKeys m := by
  induction m with
  | nil => simp [smapGet, smapKeys]
  | cons p rest ih =>
    obtain ⟨k0, v0⟩ := p
    by_cases h : k0 = k
    · simp [smapGet, smapKeys, h]
    · have hk : ¬k = k0 := fun hh => h hh.symm
      simp [smapGet, smapKeys, h, hk, ih]

theorem smapSet_not_mem {α : Type} (m : SMap α) (k : String) (v : α)
    (h : k ∉ smapKeys m) : smapSet m k v = m ++ [(k, v)] := by
  induction m with
  | nil => simp [smapSet]
  | cons p rest ih =>
    obtain ⟨k0, v0⟩ := p
    simp only [smapKeys, List.map_cons, List.mem_cons] at h
    push_neg at h
    have h0 : ¬k0 = k := fun hh => h.1 hh.symm
    simp [smapSet, h0, ih (by simpa [smapKeys] using h.2)]

/-- Lookup in a map of the canonical form `K.map (fun k => (k, g k))`. -/
theorem smapGet_mapForm {α : Type} (K : List String) (g : String → α) (k : String) :
    smapGet (K.map (fun x => (x, g x))) k = if k ∈ K then some (g k) else none := by
  induction K with
  | nil => simp [smapGet]
  | cons k0 rest ih =>
    by_cases h : k0 = k
    · subst h; simp [smapGet, ih]
    · have hk : ¬k = k0 := fun hh => h hh.symm
      simp [smapGet, h, hk, ih]

/-- Updating an existing key of a canonical-form map rewrites just that
key's value. -/
theorem smapSet_mapForm {α : Type} (K : List String) (g : String → α) (k : String)
    (v : α) (hnd : K.Nodup) (hk : k ∈ K) :
    smapSet (K.map (fun x => (x, g x))) k v
      = K.map (fun x => (x, if x = k then v else g x)) := by
  induction K with
  | nil => simp at hk
  | cons k0 rest ih =>
    rcases List.nodup_cons.mp hnd with ⟨hk0, hndr⟩
    by_cases h : k0 = k
    · subst h
      simp only [List.map_cons, smapSet, if_pos rfl, if_pos]
      have : rest.map (fun x => (x, if x = k0 then v else g x))
          = rest.map (fun x => (x, g x)) := by
        apply List.map_congr_left
        intro x hx
        have : x ≠ k0 := fun hh => hk0 (hh ▸ hx)
        simp [this]
      rw [this]
    · have hk' : k ∈ rest := by
        rcases List.mem_cons.mp hk with h1 | h1
        · exact absurd h1.symm h
        · exact h1
      simp [smapSet, h, ih hndr hk']

/-- Dimension selector of a primary aggregation: `some key` when the record
contributes to the map, `none` when the guard skips it. -/
def selTicket (a : AttendeeRow) : Option String := some a.ticketType

def selGateway (a : AttendeeRow) : Option String := presentVal a.gateway

def selSalesChannel (a : AttendeeRow) : Option String := presentVal a.salesChannel

/-- One step of a primary aggregation map under selector `sel`. -/
def mapFoldStep (sel : AttendeeRow → Option String) (m : SMap Bucket) (a : AttendeeRow) :
    SMap Bucket :=
  match sel a with
  | some k => upsertBucket m k a
  | none => m

def mapFold (sel : AttendeeRow → Option String) (l : List AttendeeRow) : SMap Bucket :=
  l.foldl (mapFoldStep sel) []

/-- First-occurrence-ordered distinct keys contributed under `sel`
(insertion order of a JavaScript `Map`). -/
def keysStep (sel : AttendeeRow → Option String) (ks : List String) (a : AttendeeRow) :
    List String :=
  match sel a with
  | some k => if k ∈ ks then ks else ks ++ [k]
  | none => ks

def keysOf (sel : AttendeeRow → Option String) (l : List AttendeeRow) : List String :=
  l.foldl (keysStep sel) []

def matchesKey (sel : AttendeeRow → Option String) (k : String) (a : AttendeeRow) : Bool :=
  sel a == some k

def recordsFor (sel : AttendeeRow → Option String) (k : String) (l : List AttendeeRow) :
    List AttendeeRow :=
  l.filter (matchesKey sel k)

/-- The bucket obtained by folding a record list into the zero bucket. -/
def aggBucket (k : String) (l : List AttendeeRow) : Bucket :=
  l.foldl Bucket.accumulate (zeroBucket k)

theorem aggBucket_key_aux (l : List AttendeeRow) :
    ∀ b : Bucket, (l.foldl Bucket.accumulate b).key = b.key := by
  induction l with
  | nil => intro b; rfl
  | cons a t ih => intro b; simpa [List.foldl, Bucket.accumulate] using ih (b.accumulate a)

theorem aggBucket_key (k : String) (l : List AttendeeRow) : (aggBucket k l).key = k :=
  aggBucket_key_aux l (zeroBucket k)

theorem mem_foldl_keysStep (sel : AttendeeRow → Option String) :
    ∀ (l : List AttendeeRow) (ks : List String) (k : String),
      k ∈ l.foldl (keysStep sel) ks ↔ k ∈ ks ∨ ∃ a ∈ l, sel a = some k := by
  intro l
  induction l with
  | nil => intro ks k; simp
  | cons a t ih =>
    intro ks k
    have hstep : k ∈ keysStep sel ks a ↔ k ∈ ks ∨ sel a = some k := by
      unfold keysStep
      cases h : sel a with
      | none => simp [h]
      | some k0 =>
        by_cases hk : k0 ∈ ks
        · simp only [if_pos hk]
          constructor
          · exact fun hh => Or.inl hh
          · rintro (hh | hh)
            · exact hh
            · rcases Option.some.injEq k0 k ▸ hh with h1
              have : k0 = k := by injection hh
              exact this ▸ hk
        · simp only [if_neg hk, List.mem_append, List.mem_singleton]
          constructor
          · rintro (hh | hh)
            · exact Or.inl hh
            · exact Or.inr (by rw [hh])
          · rintro (hh | hh)
            · exact Or.inl hh
            · have : k0 = k := by injection hh
              exact Or.inr this.symm
    rw [List.foldl_cons, ih (keysStep sel ks a) k, hstep]
    simp only [List.mem_cons]
    constructor
    · rintro ((hh | hh) | ⟨a', ha', hs⟩)
      · exact Or.inl hh
      · exact Or.inr ⟨a, Or.inl rfl, hh⟩
      · exact Or.inr ⟨a', Or.inr ha', hs⟩
    · rintro (hh | ⟨a', ha' | ha', hs⟩)
      · exact Or.inl (Or.inl hh)
      · exact Or.inl (Or.inr (ha' ▸ hs))
      · exact Or.inr ⟨a', ha', hs⟩

theorem mem_keysOf (sel : AttendeeRow → Option String) (l : List AttendeeRow) (k : String) :
    k ∈ keysOf sel l ↔ ∃ a ∈ l, sel a = some k := by
  rw [keysOf, mem_foldl_keysStep]
  simp

theorem nodup_foldl_keysStep (sel : AttendeeRow → Option String) :
    ∀ (l : List AttendeeRow) (ks : List String), ks.Nodup → (l.foldl (keysStep sel) ks).Nodup := by
  intro l
  induction l with
  | nil => intro ks h; exact h
  | cons a t ih =>
    intro ks h
    apply ih
    unfold keysStep
    cases hs : sel a with
    | none => exact h
    | some k0 =>
      by_cases hk : k0 ∈ ks
      · simp [hk, h]
      · simp only [if_neg hk]
        simpa [List.nodup_append] using ⟨h, hk⟩

theorem nodup_keysOf (sel : AttendeeRow → Option String) (l : List AttendeeRow) :
    (keysOf sel l).Nodup :=
  nodup_foldl_keysStep sel l [] List.nodup_nil

theorem keysOf_append_singleton (sel : AttendeeRow → Option String) (l : List AttendeeRow)
    (a : AttendeeRow) : keysOf sel (l ++ [a]) = keysStep sel (keysOf sel l) a := by
  simp [keysOf, List.foldl_append]

theorem mapFold_append_singleton (sel : AttendeeRow → Option String) (l : List AttendeeRow)
    (a : AttendeeRow) : mapFold sel (l ++ [a]) = mapFoldStep sel (mapFold sel l) a := by
  simp [mapFold, List.foldl_append]

theorem recordsFor_append_singleton (sel : AttendeeRow → Option String) (k : String)
    (l : List AttendeeRow) (a : AttendeeRow) :
    recordsFor sel k (l ++ [a])
      = recordsFor sel k l ++ (if matchesKey sel k a then [a] else []) := by
  simp only [recordsFor, List.filter_append]
  congr 1
  by_cases h : matchesKey sel k a <;> simp [h]

theorem aggBucket_append_singleton (k : String) (l : List AttendeeRow) (a : AttendeeRow) :
    aggBucket k (l ++ [a]) = (aggBucket k l).accumulate a := by
  simp [aggBucket, List.foldl_append]

theorem matchesKey_eq_true_iff (sel : AttendeeRow → Option String) (k : String)
    (a : AttendeeRow) : matchesKey sel k a = true ↔ sel a = some k := by
  simp [matchesKey]

theorem recordsFor_eq_nil_of_not_mem (sel : AttendeeRow → Option String) (k : String)
    (l : List AttendeeRow) (h : k ∉ keysOf sel l) : recordsFor sel k l = [] := by
  rw [recordsFor, List.filter_eq_nil_iff]
  intro a ha
  rw [mem_keysOf] at h
  push_neg at h
  simp only [matchesKey, beq_iff_eq]
  exact h a ha

/-- `upsertBucket` in one equation: fold the record into the stored bucket,
the zero bucket when the key is new. -/
theorem upsertBucket_eq (m : SMap Bucket) (k : String) (a : AttendeeRow) :
    upsertBucket m k a
      = smapSet m k (((smapGet m k).getD (zeroBucket k)).accumulate a) := by
  unfold upsertBucket
  cases h : smapGet m k <;> simp [newBucket_eq_accumulate]

/-- The master characterization: a primary aggregation map is the list of
first-occurrence-ordered keys, each associated with the fold of exactly its
matching records. -/
theorem mapFold_eq_mapForm (sel : AttendeeRow → Option String) (l : List AttendeeRow) :
    mapFold sel l = (keysOf sel l).map (fun k => (k, aggBucket k (recordsFor sel k l))) := by
  induction l using List.reverseRecOn with
  | nil => rfl
  | append_singleton t a ih =>
    rw [mapFold_append_singleton, keysOf_append_singleton]
    cases hs : sel a with
    | none =>
      simp only [mapFoldStep, keysStep, hs]
      rw [ih]
      apply List.map_congr_left
      intro k hk
      rw [recordsFor_append_singleton]
      have : matchesKey sel k a = false := by
        simp [matchesKey, hs]
      simp [this]
    | some k0 =>
      simp only [mapFoldStep, keysStep, hs]
      rw [ih, upsertBucket_eq, smapGet_mapForm]
      by_cases hk0 : k0 ∈ keysOf sel t
      · -- existing key: in-place update of its bucket
        simp only [hk0, if_true, ite_true, Option.getD_some]
        rw [smapSet_mapForm _ _ _ _ (nodup_keysOf sel t) hk0]
        apply List.map_congr_left
        intro k hk
        rw [recordsFor_append_singleton]
        by_cases hkk : k = k0
        · subst hkk
          have hm : matchesKey sel k a = true := by simp [matchesKey, hs]
          simp [hm, aggBucket_append_singleton]
        · have hkk2 : ¬k0 = k := fun hh => hkk hh.symm
          have hm : matchesKey sel k a = false := by
            simp [matchesKey, hs, hkk2]
          simp [hm, hkk]
      · -- new key: appended at the end
        simp only [hk0, if_false, ite_false, Option.getD_none]
        rw [smapSet_not_mem]
        · rw [List.map_append]
          congr 1
          · apply List.map_congr_left
            intro k hk
            rw [recordsFor_append_singleton]
            have hkk : ¬k = k0 := fun hh => hk0 (hh ▸ hk)
            have hkk2 : ¬k0 = k := fun hh => hkk hh.symm
            have hm : matchesKey sel k a = false := by
              simp [matchesKey, hs, hkk2]
            simp [hm]
          · rw [List.map_singleton, recordsFor_append_singleton,
              recordsFor_eq_nil_of_not_mem sel k0 t hk0]
            have hm : matchesKey sel k0 a = true := by simp [matchesKey, hs]
            simp only [hm, if_pos, List.nil_append]
            rfl
        · simp only [smapKeys, List.map_map]
          simpa using hk0

/-- Pair selector of a second-level aggregation: `some (outer, inner)` when
the record contributes under both guards. -/
def selTicketGateway (a : AttendeeRow) : Option (String × String) :=
  match presentVal a.gateway with
  | some g => some (a.ticketType, g)
  | none => none

def selTicketSalesChannel (a : AttendeeRow) : Option (String × String) :=
  match presentVal a.salesChannel with
  | some c => some (a.ticketType, c)
  | none => none

def selGatewayTicket (a : AttendeeRow) : Option (String × String) :=
  match presentVal a.gateway with
  | some g => some (g, a.ticketType)
  | none => none

def selGatewaySalesChannel (a : AttendeeRow) : Option (String × String) :=
  match presentVal a.gateway, presentVal a.salesChannel with
  | some g, some c => some (g, c)
  | _, _ => none

def selSalesChannelTicket (a : AttendeeRow) : Option (String × String) :=
  match presentVal a.salesChannel with
  | some c => some (c, a.ticketType)
  | none => none

def selSalesChannelGateway (a : AttendeeRow) : Option (String × String) :=
  match presentVal a.salesChannel, presentVal a.gateway with
  | some c, some g => some (c, g)
  | _, _ => none

def nestedStep (sel2 : AttendeeRow → Option (String × String)) (m : SMap (SMap Bucket))
    (a : AttendeeRow) : SMap (SMap Bucket) :=
  match sel2 a with
  | some (ko, ki) => upsertNested m ko ki a
  | none => m

def nestedFold (sel2 : AttendeeRow → Option (String × String)) (l : List AttendeeRow) :
    SMap (SMap Bucket) :=
  l.foldl (nestedStep sel2) []

/-- The outer-key selector induced by a pair selector. -/
def outerSel (sel2 : AttendeeRow → Option (String × String)) (a : AttendeeRow) :
    Option String :=
  (sel2 a).map (fun p => p.1)

/-- The inner-key selector induced by a pair selector at a fixed outer key. -/
def innerSel (sel2 : AttendeeRow → Option (String × String)) (ko : String)
    (a : AttendeeRow) : Option String :=
  match sel2 a with
  | some (ko', ki) => if ko' = ko then some ki else none
  | none => none

theorem nestedFold_append_singleton (sel2 : AttendeeRow → Option (String × String))
    (l : List AttendeeRow) (a : AttendeeRow) :
    nestedFold sel2 (l ++ [a]) = nestedStep sel2 (nestedFold sel2 l) a := by
  simp [nestedFold, List.foldl_append]

theorem mapFold_eq_nil_of_none (sel : AttendeeRow → Option String) (l : List AttendeeRow)
    (h : ∀ a ∈ l, sel a = none) : mapFold sel l = [] := by
  induction l using List.reverseRecOn with
  | nil => rfl
  | append_singleton t a ih =>
    rw [mapFold_append_singleton]
    have ht : mapFold sel t = [] := ih (fun x hx => h x (List.mem_append_left _ hx))
    have ha : sel a = none := h a (List.mem_append_right _ (List.mem_singleton_self a))
    simp [mapFoldStep, ha, ht]

/-- The master characterization of a second-level aggregation map: one entry
per observed outer key, whose inner map is the primary aggregation of the
induced inner selector over the whole record list. -/
theorem nestedFold_eq_mapForm (sel2 : AttendeeRow → Option (String × String))
    (l : List AttendeeRow) :
    nestedFold sel2 l
      = (keysOf (outerSel sel2) l).map (fun ko => (ko, mapFold (innerSel sel2 ko) l)) := by
  induction l using List.reverseRecOn with
  | nil => rfl
  | append_singleton t a ih =>
    rw [nestedFold_append_singleton, keysOf_append_singleton]
    cases hs : sel2 a with
    | none =>
      have ho : outerSel sel2 a = none := by simp [outerSel, hs]
      simp only [nestedStep, hs, keysStep, ho]
      rw [ih]
      apply List.map_congr_left
      intro ko hko
      rw [mapFold_append_singleton]
      have hi : innerSel sel2 ko a = none := by simp [innerSel, hs]
      simp [mapFoldStep, hi]
    | some p =>
      obtain ⟨ko0, ki0⟩ := p
      have ho : outerSel sel2 a = some ko0 := by simp [outerSel, hs]
      simp only [nestedStep, hs, keysStep, ho]
      rw [ih]
      unfold upsertNested
      rw [smapGet_mapForm]
      by_cases hko0 : ko0 ∈ keysOf (outerSel sel2) t
      · simp only [hko0, if_true, ite_true, Option.getD_some]
        rw [smapSet_mapForm _ _ _ _ (nodup_keysOf (outerSel sel2) t) hko0]
        apply List.map_congr_left
        intro ko hko
        by_cases hkk : ko = ko0
        · subst hkk
          have hi : innerSel sel2 ko a = some ki0 := by simp [innerSel, hs]
          rw [mapFold_append_singleton]
          simp [mapFoldStep, hi]
        · have hi : innerSel sel2 ko a = none := by
            have : ¬ko0 = ko := fun hh => hkk hh.symm
            simp [innerSel, hs, this]
          rw [mapFold_append_singleton]
          simp [mapFoldStep, hi, hkk]
      · simp only [hko0, if_false, ite_false, Option.getD_none]
        have hempty : mapFold (innerSel sel2 ko0) t = [] := by
          apply mapFold_eq_nil_of_none
          intro x hx
          unfold innerSel
          cases hx2 : sel2 x with
          | none => rfl
          | some q =>
            obtain ⟨qo, qi⟩ := q
            by_cases hq : qo = ko0
            · exfalso
              apply hko0
              rw [mem_keysOf]
              exact ⟨x, hx, by simp [outerSel, hx2, hq]⟩
            · simp [hq]
        rw [smapSet_not_mem]
        · rw [List.map_append]
          congr 1
          · apply List.map_congr_left
            intro ko hko
            have hkk : ¬ko = ko0 := fun hh => hko0 (hh ▸ hko)
            have hi : innerSel sel2 ko a = none := by
              have : ¬ko0 = ko := fun hh => hkk hh.symm
              simp [innerSel, hs, this]
            rw [mapFold_append_singleton]
            simp [mapFoldStep, hi]
          · rw [List.map_singleton]
            have hi : innerSel sel2 ko0 a = some ki0 := by simp [innerSel, hs]
            rw [mapFold_append_singleton, hempty]
            simp [mapFoldStep, hi]
        · simp only [smapKeys, List.map_map]
          simpa using hko0

/-- Projection commutation: if a projection of the big state steps like `g`,
it commutes with the fold. -/
theorem foldl_proj {S T A : Type} (f : S → A → S) (g : T → A → T) (proj : S → T)
    (h : ∀ s a, proj (f s a) = g (proj s) a) :
    ∀ (l : List A) (s : S), proj (l.foldl f s) = l.foldl g (proj s) := by
  intro l
  induction l with
  | nil => intro s; rfl
  | cons a t ih =>
    intro s
    rw [List.foldl_cons, List.foldl_cons, ih, h]

theorem processAttendee_ticketTypeMap (s : AggState) (a : AttendeeRow) :
    (processAttendee s a).ticketTypeMap = mapFoldStep selTicket s.ticketTypeMap a := by
  simp [processAttendee, mapFoldStep, selTicket]

theorem processAttendee_gatewayMap (s : AggState) (a : AttendeeRow) :
    (processAttendee s a).gatewayMap = mapFoldStep selGateway s.gatewayMap a := by
  cases h : presentVal a.gateway <;> simp [processAttendee, mapFoldStep, selGateway, h]

theorem processAttendee_salesChannelMap (s : AggState) (a : AttendeeRow) :
    (processAttendee s a).salesChannelMap = mapFoldStep selSalesChannel s.salesChannelMap a := by
  cases h : presentVal a.salesChannel <;>
    simp [processAttendee, mapFoldStep, selSalesChannel, h]

theorem processAttendee_gatewayBreakdownMap (s : AggState) (a : AttendeeRow) :
    (processAttendee s a).gatewayBreakdownMap
      = nestedStep selTicketGateway s.gatewayBreakdownMap a := by
  cases h : presentVal a.gateway <;>
    simp [processAttendee, nestedStep, selTicketGateway, h]

theorem processAttendee_salesChannelBreakdownMapForTicket (s : AggState) (a : AttendeeRow) :
    (processAttendee s a).salesChannelBreakdownMapForTicket
      = nestedStep selTicketSalesChannel s.salesChannelBreakdownMapForTicket a := by
  cases h : presentVal a.salesChannel <;>
    simp [processAttendee, nestedStep, selTicketSalesChannel, h]

theorem processAttendee_ticketTypeBreakdownMap (s : AggState) (a : AttendeeRow) :
    (processAttendee s a).ticketTypeBreakdownMap
      = nestedStep selGatewayTicket s.ticketTypeBreakdownMap a := by
  cases h : presentVal a.gateway <;>
    simp [processAttendee, nestedStep, selGatewayTicket, h]

theorem processAttendee_salesChannelBreakdownMapForGateway (s : AggState) (a : AttendeeRow) :
    (processAttendee s a).salesChannelBreakdownMapForGateway
      = nestedStep selGatewaySalesChannel s.salesChannelBreakdownMapForGateway a := by
  cases hg : presentVal a.gateway <;> cases hc : presentVal a.salesChannel <;>
    simp [processAttendee, nestedStep, selGatewaySalesChannel, hg, hc]

theorem processAttendee_ticketTypeBreakdownMapForSalesChannel (s : AggState) (a : AttendeeRow) :
    (processAttendee s a).ticketTypeBreakdownMapForSalesChannel
      = nestedStep selSalesChannelTicket s.ticketTypeBreakdownMapForSalesChannel a := by
  cases h : presentVal a.salesChannel <;>
    simp [processAttendee, nestedStep, selSalesChannelTicket, h]

theorem processAttendee_gatewayBreakdownMapForSalesChannel (s : AggState) (a : AttendeeRow) :
    (processAttendee s a).gatewayBreakdownMapForSalesChannel
      = nestedStep selSalesChannelGateway s.gatewayBreakdownMapForSalesChannel a := by
  cases hg : presentVal a.gateway <;> cases hc : presentVal a.salesChannel <;>
    simp [processAttendee, nestedStep, selSalesChannelGateway, hg, hc]

/-- The state after the main loop, componentwise. -/
def finalState (l : List AttendeeRow) : AggState := l.foldl processAttendee initAggState

theorem finalState_ticketTypeMap (l : List AttendeeRow) :
    (finalState l).ticketTypeMap = mapFold selTicket l :=
  foldl_proj processAttendee (mapFoldStep selTicket) (fun s => s.ticketTypeMap)
    processAttendee_ticketTypeMap l initAggState

theorem finalState_gatewayMap (l : List AttendeeRow) :
    (finalState l).gatewayMap = mapFold selGateway l :=
  foldl_proj processAttendee (mapFoldStep selGateway) (fun s => s.gatewayMap)
    processAttendee_gatewayMap l initAggState

theorem finalState_salesChannelMap (l : List AttendeeRow) :
    (finalState l).salesChannelMap = mapFold selSalesChannel l :=
  foldl_proj processAttendee (mapFoldStep selSalesChannel) (fun s => s.salesChannelMap)
    processAttendee_salesChannelMap l initAggState

theorem finalState_gatewayBreakdownMap (l : List AttendeeRow) :
    (finalState l).gatewayBreakdownMap = nestedFold selTicketGateway l :=
  foldl_proj processAttendee (nestedStep selTicketGateway) (fun s => s.gatewayBreakdownMap)
    processAttendee_gatewayBreakdownMap l initAggState

theorem finalState_salesChannelBreakdownMapForTicket (l : List AttendeeRow) :
    (finalState l).salesChannelBreakdownMapForTicket = nestedFold selTicketSalesChannel l :=
  foldl_proj processAttendee (nestedStep selTicketSalesChannel)
    (fun s => s.salesChannelBreakdownMapForTicket)
    processAttendee_salesChannelBreakdownMapForTicket l initAggState

theorem finalState_ticketTypeBreakdownMap (l : List AttendeeRow) :
    (finalState l).ticketTypeBreakdownMap = nestedFold selGatewayTicket l :=
  foldl_proj processAttendee (nestedStep selGatewayTicket)
    (fun s => s.ticketTypeBreakdownMap)
    processAttendee_ticketTypeBreakdownMap l initAggState

theorem finalState_salesChannelBreakdownMapForGateway (l : List AttendeeRow) :
    (finalState l).salesChannelBreakdownMapForGateway = nestedFold selGatewaySalesChannel l :=
  foldl_proj processAttendee (nestedStep selGatewaySalesChannel)
    (fun s => s.salesChannelBreakdownMapForGateway)
    processAttendee_salesChannelBreakdownMapForGateway l initAggState

theorem finalState_ticketTypeBreakdownMapForSalesChannel (l : List AttendeeRow) :
    (finalState l).ticketTypeBreakdownMapForSalesChannel = nestedFold selSalesChannelTicket l :=
  foldl_proj processAttendee (nestedStep selSalesChannelTicket)
    (fun s => s.ticketTypeBreakdownMapForSalesChannel)
    processAttendee_ticketTypeBreakdownMapForSalesChannel l initAggState

theorem finalState_gatewayBreakdownMapForSalesChannel (l : List AttendeeRow) :
    (finalState l).gatewayBreakdownMapForSalesChannel = nestedFold selSalesChannelGateway l :=
  foldl_proj processAttendee (nestedStep selSalesChannelGateway)
    (fun s => s.gatewayBreakdownMapForSalesChannel)
    processAttendee_gatewayBreakdownMapForSalesChannel l initAggState

instance : IsTotal Bucket (fun b1 b2 : Bucket => b1.key ≤ b2.key) :=
  ⟨fun a b => le_total a.key b.key⟩

instance : IsTrans Bucket (fun b1 b2 : Bucket => b1.key ≤ b2.key) :=
  ⟨fun _ _ _ h1 h2 => le_trans h1 h2⟩

theorem localeSort_perm (l : List String) : (localeSort l).Perm l :=
  @List.perm_insertionSort String (fun x y : String => x ≤ y)
    (fun x y => stringDecLe x y) l

theorem localeSort_sorted (l : List String) :
    (localeSort l).Sorted (fun x y : String => x ≤ y) :=
  @List.sorted_insertionSort String (fun x y : String => x ≤ y)
    (fun x y => stringDecLe x y) inferInstance inferInstance l

theorem localeSort_nodup (l : List String) (h : l.Nodup) : (localeSort l).Nodup :=
  (localeSort_perm l).nodup_iff.mpr h

theorem localeSort_mem (l : List String) (k : String) : k ∈ localeSort l ↔ k ∈ l :=
  (localeSort_perm l).mem_iff

theorem sortByKey_perm (l : List Bucket) : (sortByKey l).Perm l :=
  @List.perm_insertionSort Bucket (fun b1 b2 : Bucket => b1.key ≤ b2.key)
    (fun b1 b2 => stringDecLe b1.key b2.key) l

theorem sortByKey_sorted (l : List Bucket) :
    (sortByKey l).Sorted (fun b1 b2 : Bucket => b1.key ≤ b2.key) :=
  @List.sorted_insertionSort Bucket (fun b1 b2 : Bucket => b1.key ≤ b2.key)
    (fun b1 b2 => stringDecLe b1.key b2.key) inferInstance inferInstance l

/-- Two sorted bucket lists that are permutations of each other and have
distinct keys are equal: sorting by key is deterministic on key-distinct
collections. -/
theorem eq_of_perm_of_sorted_key :
    ∀ (l1 l2 : List Bucket), l1.Perm l2
      → l1.Sorted (fun b1 b2 : Bucket => b1.key ≤ b2.key)
      → l2.Sorted (fun b1 b2 : Bucket => b1.key ≤ b2.key)
      → (l1.map Bucket.key).Nodup → l1 = l2 := by
  intro l1
  induction l1 with
  | nil =>
    intro l2 hp _ _ _
    exact (List.Perm.nil_eq hp).symm.symm ▸ rfl
  | cons b1 t1 ih =>
    intro l2 hp hs1 hs2 hnd
    cases l2 with
    | nil => exact absurd hp.symm (by simp)
    | cons b2 t2 =>
      rcases List.sorted_cons.mp hs1 with ⟨h1all, hs1t⟩
      rcases List.sorted_cons.mp hs2 with ⟨h2all, hs2t⟩
      rw [List.map_cons] at hnd
      rcases List.nodup_cons.mp hnd with ⟨hk1, hndt⟩
      have hb1 : b1 ∈ b2 :: t2 := hp.mem_iff.mp (List.mem_cons_self b1 t1)
      have hb2 : b2 ∈ b1 :: t1 := hp.symm.mem_iff.mp (List.mem_cons_self b2 t2)
      have hbb : b1 = b2 := by
        by_contra hne
        have hb1t : b1 ∈ t2 := by
          rcases List.mem_cons.mp hb1 with h | h
          · exact absurd h hne
          · exact h
        have hb2t : b2 ∈ t1 := by
          rcases List.mem_cons.mp hb2 with h | h
          · exact absurd h.symm hne
          · exact h
        have keq : b1.key = b2.key :=
          le_antisymm (h1all b2 hb2t) (h2all b1 hb1t)
        exact hk1 (keq ▸ List.mem_map_of_mem Bucket.key hb2t)
      subst hbb
      have : t1 = t2 := ih t2 (hp.cons_inv) hs1t hs2t hndt
      rw [this]

/-- Sorting the values of a canonical-form map is the same as sorting the
keys and mapping. -/
theorem sortByKey_map_keys (K : List String) (g : String → Bucket)
    (hg : ∀ k, (g k).key = k) (hnd : K.Nodup) :
    sortByKey (K.map g) = (localeSort K).map g := by
  apply eq_of_perm_of_sorted_key
  · exact (sortByKey_perm (K.map g)).trans ((localeSort_perm K).map g).symm
  · exact sortByKey_sorted (K.map g)
  · rw [List.Sorted, List.pairwise_map]
    apply List.Pairwise.imp _ (localeSort_sorted K)
    intro a b hab
    simpa [hg] using hab
  · have hperm : ((sortByKey (K.map g)).map Bucket.key).Perm (K.map (fun k => (g k).key)) := by
      simpa [List.map_map, Function.comp] using (sortByKey_perm (K.map g)).map Bucket.key
    have : K.map (fun k => (g k).key) = K := by
      rw [List.map_congr_left (fun k _ => hg k)]
      simp
    rw [this] at hperm
    exact hperm.nodup_iff.mpr hnd

theorem smapGet_mapFold (sel : AttendeeRow → Option String) (l : List AttendeeRow)
    (k : String) :
    smapGet (mapFold sel l) k
      = if k ∈ keysOf sel l then some (aggBucket k (recordsFor sel k l)) else none := by
  rw [mapFold_eq_mapForm, smapGet_mapForm]

theorem smapKeys_mapFold (sel : AttendeeRow → Option String) (l : List AttendeeRow) :
    smapKeys (mapFold sel l) = keysOf sel l := by
  rw [mapFold_eq_mapForm]
  simp only [smapKeys, List.map_map]
  exact List.map_id _

theorem smapValues_mapFold (sel : AttendeeRow → Option String) (l : List AttendeeRow) :
    smapValues (mapFold sel l)
      = (keysOf sel l).map (fun k => aggBucket k (recordsFor sel k l)) := by
  rw [mapFold_eq_mapForm]
  simp [smapValues, List.map_map, Function.comp]

theorem smapGet_nestedFold (sel2 : AttendeeRow → Option (String × String))
    (l : List AttendeeRow) (ko : String) :
    smapGet (nestedFold sel2 l) ko
      = if ko ∈ keysOf (outerSel sel2) l then some (mapFold (innerSel sel2 ko) l) else none := by
  rw [nestedFold_eq_mapForm, smapGet_mapForm]

/-- The records contributing to the `(outer, inner)` cell of a second-level
aggregation. -/
def recordsFor2 (sel2 : AttendeeRow → Option (String × String)) (ko ki : String)
    (l : List AttendeeRow) : List AttendeeRow :=
  l.filter (fun a => sel2 a == some (ko, ki))

theorem recordsFor_innerSel (sel2 : AttendeeRow → Option (String × String))
    (ko ki : String) (l : List AttendeeRow) :
    recordsFor (innerSel sel2 ko) ki l = recordsFor2 sel2 ko ki l := by
  unfold recordsFor recordsFor2
  apply List.filter_congr
  intro a _
  unfold matchesKey innerSel
  cases hs : sel2 a with
  | none => simp
  | some p =>
    obtain ⟨qo, qi⟩ := p
    by_cases hq : qo = ko
    · subst hq
      by_cases hq2 : qi = ki <;> simp [hq2]
    · simp [hq]

theorem recordsFor2_eq_nil_of_outer_not_mem (sel2 : AttendeeRow → Option (String × String))
    (ko ki : String) (l : List AttendeeRow) (h : ko ∉ keysOf (outerSel sel2) l) :
    recordsFor2 sel2 ko ki l = [] := by
  rw [recordsFor2, List.filter_eq_nil_iff]
  intro a ha
  rw [mem_keysOf] at h
  push_neg at h
  have := h a ha
  simp only [beq_iff_eq]
  intro hh
  exact this (by simp [outerSel, hh])

/-- Densifying a row's inner map against a global key list yields, per global
key, exactly the aggregate of that cell's records (the zero bucket when the
cell has none). -/
theorem densify_nested (GK : List String) (sel2 : AttendeeRow → Option (String × String))
    (l : List AttendeeRow) (ko : String) :
    densify GK ((smapGet (nestedFold sel2 l) ko).getD [])
      = GK.map (fun ki => aggBucket ki (recordsFor2 sel2 ko ki l)) := by
  rw [smapGet_nestedFold]
  by_cases h : ko ∈ keysOf (outerSel sel2) l
  · simp only [h, if_true, ite_true, Option.getD_some]
    unfold densify
    apply List.map_congr_left
    intro ki _
    rw [smapGet_mapFold]
    by_cases hki : ki ∈ keysOf (innerSel sel2 ko) l
    · simp only [hki, if_true, ite_true, Option.getD_some]
      rw [recordsFor_innerSel]
    · simp only [hki, if_false, ite_false, Option.getD_none]
      rw [← recordsFor_innerSel, recordsFor_eq_nil_of_not_mem _ _ _ hki]
      rfl
  · simp only [h, if_false, ite_false, Option.getD_none]
    unfold densify
    apply List.map_congr_left
    intro ki _
    rw [recordsFor2_eq_nil_of_outer_not_mem sel2 ko ki l h]
    simp [smapGet]
    rfl

/-- The globally sorted distinct key list of a dimension. -/
def sortedKeysOf (sel : AttendeeRow → Option String) (l : List AttendeeRow) : List String :=
  localeSort (keysOf sel l)

/-- Closed form of the breakdown a primary row with key `ko` receives. -/
def breakdownFor (sel2 : AttendeeRow → Option (String × String)) (globalKeys : List String)
    (ko : String) (l : List AttendeeRow) : Option (List Bucket) :=
  attachBreakdown (globalKeys.map (fun ki => aggBucket ki (recordsFor2 sel2 ko ki l)))

theorem mkBreakdown_closed (sel2 : AttendeeRow → Option (String × String))
    (GK : List String) (l : List AttendeeRow) (ko : String) :
    mkBreakdown GK (nestedFold sel2 l) ko = breakdownFor sel2 GK ko l := by
  unfold mkBreakdown breakdownFor
  rw [densify_nested]

theorem foldl_eq_finalState (l : List AttendeeRow) :
    l.foldl processAttendee initAggState = finalState l := rfl

/-- Closed form of the ticket-type view: one row per globally sorted observed
ticket type, carrying the aggregate of its records and the densified gateway
and sales-channel breakdowns. -/
theorem generateReport_rows (V C : List AttendeeRow) :
    (generateReport V C).rows
      = (sortedKeysOf selTicket (V ++ C)).map (fun t =>
          { bucket := aggBucket t (recordsFor selTicket t (V ++ C))
            gatewayBreakdown :=
              breakdownFor selTicketGateway (sortedKeysOf selGateway (V ++ C)) t (V ++ C)
            salesChannelBreakdown :=
              breakdownFor selTicketSalesChannel (sortedKeysOf selSalesChannel (V ++ C)) t (V ++ C)
            ticketTypeBreakdown := none }) := by
  simp only [generateReport, foldl_eq_finalState, finalState_ticketTypeMap,
    finalState_gatewayMap, finalState_salesChannelMap, finalState_gatewayBreakdownMap,
    finalState_salesChannelBreakdownMapForTicket, smapValues_mapFold, smapKeys_mapFold]
  rw [sortByKey_map_keys _ _ (fun k => aggBucket_key k _) (nodup_keysOf _ _)]
  rw [List.map_map]
  apply List.map_congr_left
  intro t ht
  simp only [Function.comp, aggBucket_key, mkBreakdown_closed, sortedKeysOf]

/-- Closed form of the gateway view. -/
theorem generateReport_gatewayRows (V C : List AttendeeRow) :
    (generateReport V C).gatewayRows
      = (sortedKeysOf selGateway (V ++ C)).map (fun g =>
          { bucket := aggBucket g (recordsFor selGateway g (V ++ C))
            ticketTypeBreakdown :=
              breakdownFor selGatewayTicket (sortedKeysOf selTicket (V ++ C)) g (V ++ C)
            salesChannelBreakdown :=
              breakdownFor selGatewaySalesChannel (sortedKeysOf selSalesChannel (V ++ C)) g
                (V ++ C)
            gatewayBreakdown := none }) := by
  simp only [generateReport, foldl_eq_finalState, finalState_ticketTypeMap,
    finalState_gatewayMap, finalState_salesChannelMap, finalState_ticketTypeBreakdownMap,
    finalState_salesChannelBreakdownMapForGateway, smapValues_mapFold, smapKeys_mapFold]
  rw [sortByKey_map_keys _ _ (fun k => aggBucket_key k _) (nodup_keysOf _ _)]
  rw [List.map_map]
  apply List.map_congr_left
  intro g hg
  simp only [Function.comp, aggBucket_key, mkBreakdown_closed, sortedKeysOf]

/-- Closed form of the sales-channel view. -/
theorem generateReport_salesChannelRows (V C : List AttendeeRow) :
    (generateReport V C).salesChannelRows
      = (sortedKeysOf selSalesChannel (V ++ C)).map (fun c =>
          { bucket := aggBucket c (recordsFor selSalesChannel c (V ++ C))
            ticketTypeBreakdown :=
              breakdownFor selSalesChannelTicket (sortedKeysOf selTicket (V ++ C)) c (V ++ C)
            gatewayBreakdown :=
              breakdownFor selSalesChannelGateway (sortedKeysOf selGateway (V ++ C)) c (V ++ C)
            salesChannelBreakdown := none }) := by
  simp only [generateReport, foldl_eq_finalState, finalState_ticketTypeMap,
    finalState_gatewayMap, finalState_salesChannelMap,
    finalState_ticketTypeBreakdownMapForSalesChannel,
    finalState_gatewayBreakdownMapForSalesChannel, smapValues_mapFold, smapKeys_mapFold]
  rw [sortByKey_map_keys _ _ (fun k => aggBucket_key k _) (nodup_keysOf _ _)]
  rw [List.map_map]
  apply List.map_congr_left
  intro c hc
  simp only [Function.comp, aggBucket_key, mkBreakdown_closed, sortedKeysOf]

theorem generateReport_eventName (V C : List AttendeeRow) :
    (generateReport V C).eventName
      = match V with
        | a :: _ => a.eventName
        | [] =>
          match C with
          | a :: _ => a.eventName
          | [] => "" := rfl

theorem foldl_accumulate_proj {M : Type} [AddCommMonoid M] (p : Bucket → M)
    (w : AttendeeRow → M) (hstep : ∀ b a, p (b.accumulate a) = p b + w a) :
    ∀ (l : List AttendeeRow) (b : Bucket),
      p (l.foldl Bucket.accumulate b) = p b + (l.map w).sum := by
  intro l
  induction l with
  | nil => intro b; simp
  | cons a t ih =>
    intro b
    rw [List.foldl_cons, ih, hstep]
    simp [add_assoc]

/-- A bucket projection that is additive along `accumulate` evaluates on an
aggregate to the sum of the record weights. -/
theorem aggBucket_proj {M : Type} [AddCommMonoid M] (p : Bucket → M) (w : AttendeeRow → M)
    (hz : ∀ k, p (zeroBucket k) = 0) (hstep : ∀ b a, p (b.accumulate a) = p b + w a)
    (k : String) (l : List AttendeeRow) : p (aggBucket k l) = (l.map w).sum := by
  rw [aggBucket, foldl_accumulate_proj p w hstep, hz, zero_add]

theorem sum_map_ite_insert {M : Type} [AddCommMonoid M] :
    ∀ (K : List String) (k0 : String), K.Nodup → k0 ∈ K → ∀ (x : M) (F : String → M),
      (K.map (fun k => if k = k0 then x + F k else F k)).sum = x + (K.map F).sum := by
  intro K
  induction K with
  | nil => intro k0 _ hk; simp at hk
  | cons k1 t ih =>
    intro k0 hnd hk x F
    rcases List.nodup_cons.mp hnd with ⟨hk1, hndt⟩
    by_cases h1 : k1 = k0
    · subst h1
      have : t.map (fun k => if k = k1 then x + F k else F k) = t.map F := by
        apply List.map_congr_left
        intro k hkt
        have : ¬k = k1 := fun hh => hk1 (hh ▸ hkt)
        simp [this]
      simp [this, add_assoc]
    · have hk0t : k0 ∈ t := by
        rcases List.mem_cons.mp hk with h | h
        · exact absurd h.symm h1
        · exact h
      simp only [List.map_cons, List.sum_cons, if_neg h1, ih k0 hndt hk0t x F]
      rw [add_left_comm]

/-- Partition identity: summing a weight cell-by-cell over a complete
duplicate-free key list is summing it over all contributing records. -/
theorem partition_sum {M : Type} [AddCommMonoid M] (sel : AttendeeRow → Option String)
    (w : AttendeeRow → M) :
    ∀ (l : List AttendeeRow) (K : List String), K.Nodup
      → (∀ a ∈ l, ∀ k, sel a = some k → k ∈ K)
      → (K.map (fun k => ((recordsFor sel k l).map w).sum)).sum
          = ((l.filter (fun a => (sel a).isSome)).map w).sum := by
  intro l
  induction l with
  | nil =>
    intro K _ _
    simp only [recordsFor, List.filter_nil, List.map_nil, List.sum_nil]
    induction K with
    | nil => rfl
    | cons k t ih => simp [ih]
  | cons a t ih =>
    intro K hnd hcov
    have hcovt : ∀ x ∈ t, ∀ k, sel x = some k → k ∈ K :=
      fun x hx => hcov x (List.mem_cons_of_mem a hx)
    cases hs : sel a with
    | none =>
      have hrec : ∀ k, recordsFor sel k (a :: t) = recordsFor sel k t := by
        intro k
        rw [recordsFor, List.filter_cons]
        have : matchesKey sel k a = false := by simp [matchesKey, hs]
        simp [recordsFor, this]
      simp only [hrec]
      rw [ih K hnd hcovt]
      rw [List.filter_cons]
      simp [hs]
    | some k0 =>
      have hk0 : k0 ∈ K := hcov a (List.mem_cons_self a t) k0 hs
      have hrec : ∀ k, recordsFor sel k (a :: t)
          = if k = k0 then a :: recordsFor sel k t else recordsFor sel k t := by
        intro k
        rw [recordsFor, List.filter_cons]
        by_cases hk : k = k0
        · have hmk : matchesKey sel k a = true := by simp [matchesKey, hs, hk]
          subst hk
          simp [recordsFor, hmk]
        · have hkk : ¬k0 = k := fun hh => hk hh.symm
          have hmk : matchesKey sel k a = false := by simp [matchesKey, hs, hkk]
          simp [recordsFor, hmk, hk]
      have hmap : K.map (fun k => ((recordsFor sel k (a :: t)).map w).sum)
          = K.map (fun k =>
              if k = k0 then w a + ((recordsFor sel k t).map w).sum
              else ((recordsFor sel k t).map w).sum) := by
        apply List.map_congr_left
        intro k _
        rw [hrec k]
        by_cases hk : k = k0 <;> simp [hk]
      rw [hmap, sum_map_ite_insert K k0 hnd hk0, ih K hnd hcovt]
      rw [List.filter_cons]
      simp [hs]

/-- Summing an additive projection of per-key aggregates over any complete
duplicate-free key list gives the weight-sum of all contributing records. -/
theorem sum_over_keys {M : Type} [AddCommMonoid M] (p : Bucket → M) (w : AttendeeRow → M)
    (hz : ∀ k, p (zeroBucket k) = 0) (hstep : ∀ b a, p (b.accumulate a) = p b + w a)
    (sel : AttendeeRow → Option String) (l : List AttendeeRow) (K : List String)
    (hnd : K.Nodup) (hcov : ∀ a ∈ l, ∀ k, sel a = some k → k ∈ K) :
    (K.map (fun k => p (aggBucket k (recordsFor sel k l)))).sum
      = ((l.filter (fun a => (sel a).isSome)).map w).sum := by
  have : K.map (fun k => p (aggBucket k (recordsFor sel k l)))
      = K.map (fun k => ((recordsFor sel k l).map w).sum) :=
    List.map_congr_left (fun k _ => aggBucket_proj p w hz hstep k _)
  rw [this, partition_sum sel w l K hnd hcov]

theorem sortedKeysOf_nodup (sel : AttendeeRow → Option String) (l : List AttendeeRow) :
    (sortedKeysOf sel l).Nodup :=
  localeSort_nodup _ (nodup_keysOf sel l)

theorem mem_sortedKeysOf (sel : AttendeeRow → Option String) (l : List AttendeeRow)
    (k : String) : k ∈ sortedKeysOf sel l ↔ ∃ a ∈ l, sel a = some k := by
  rw [sortedKeysOf, localeSort_mem, mem_keysOf]

theorem sum_over_sortedKeys {M : Type} [AddCommMonoid M] (p : Bucket → M)
    (w : AttendeeRow → M) (hz : ∀ k, p (zeroBucket k) = 0)
    (hstep : ∀ b a, p (b.accumulate a) = p b + w a)
    (sel : AttendeeRow → Option String) (l : List AttendeeRow) :
    ((sortedKeysOf sel l).map (fun k => p (aggBucket k (recordsFor sel k l)))).sum
      = ((l.filter (fun a => (sel a).isSome)).map w).sum :=
  sum_over_keys p w hz hstep sel l _ (sortedKeysOf_nodup sel l)
    (fun a ha k hk => (mem_sortedKeysOf sel l k).mpr ⟨a, ha, hk⟩)

theorem selTicket_isSome (l : List AttendeeRow) :
    l.filter (fun a => (selTicket a).isSome) = l :=
  List.filter_eq_self.mpr (fun a _ => by simp [selTicket])

/-- Any additive bucket projection summed over the ticket-type rows equals its
weight summed over all input records. -/
theorem rows_proj_sum {M : Type} [AddCommMonoid M] (p : Bucket → M) (w : AttendeeRow → M)
    (hz : ∀ k, p (zeroBucket k) = 0) (hstep : ∀ b a, p (b.accumulate a) = p b + w a)
    (V C : List AttendeeRow) :
    ((generateReport V C).rows.map (fun r => p r.bucket)).sum = ((V ++ C).map w).sum := by
  rw [generateReport_rows, List.map_map]
  show ((sortedKeysOf selTicket (V ++ C)).map
      (fun t => p (aggBucket t (recordsFor selTicket t (V ++ C))))).sum = _
  rw [sum_over_sortedKeys p w hz hstep selTicket (V ++ C), selTicket_isSome]

/-- C1. For every pair of input lists, the sum of `totalPaid` over all entries
of `rows` equals the sum of `paid` over all records of `validAttendees` and
`cancelledAttendees` combined, and for each of the 13 fee fields the sum of
that field over all entries of `rows` equals the sum of the corresponding
field over all input records. -/
theorem c1_sum_conservation (V C : List AttendeeRow) :
    ((generateReport V C).rows.map (fun r => r.bucket.totalPaid)).sum
        = ((V ++ C).map (fun a => a.paid)).sum
    ∧ ((generateReport V C).rows.map (fun r => r.bucket.fees.humanitixPassedOnFees)).sum
        = ((V ++ C).map (fun a => a.fees.humanitixPassedOnFees)).sum
    ∧ ((generateReport V C).rows.map (fun r => r.bucket.fees.humanitixAbsorbedFees)).sum
        = ((V ++ C).map (fun a => a.fees.humanitixAbsorbedFees)).sum
    ∧ ((generateReport V C).rows.map (fun r => r.bucket.fees.amexSurcharge)).sum
        = ((V ++ C).map (fun a => a.fees.amexSurcharge)).sum
    ∧ ((generateReport V C).rows.map (fun r => r.bucket.fees.customTax)).sum
        = ((V ++ C).map (fun a => a.fees.customTax)).sum
    ∧ ((generateReport V C).rows.map (fun r => r.bucket.fees.zipFeeAbsorbed)).sum
        = ((V ++ C).map (fun a => a.fees.zipFeeAbsorbed)).sum
    ∧ ((generateReport V C).rows.map (fun r => r.bucket.fees.afterpayFeeAbsorbed)).sum
        = ((V ++ C).map (fun a => a.fees.afterpayFeeAbsorbed)).sum
    ∧ ((generateReport V C).rows.map (fun r => r.bucket.fees.refunds)).sum
        = ((V ++ C).map (fun a => a.fees.refunds)).sum
    ∧ ((generateReport V C).rows.map (fun r => r.bucket.fees.feeRebate)).sum
        = ((V ++ C).map (fun a => a.fees.feeRebate)).sum
    ∧ ((generateReport V C).rows.map (fun r => r.bucket.fees.yourEarnings)).sum
        = ((V ++ C).map (fun a => a.fees.yourEarnings)).sum
    ∧ ((generateReport V C).rows.map (fun r => r.bucket.fees.refundedFees)).sum
        = ((V ++ C).map (fun a => a.fees.refundedFees)).sum
    ∧ ((generateReport V C).rows.map (fun r => r.bucket.fees.discountRedeemed)).sum
        = ((V ++ C).map (fun a => a.fees.discountRedeemed)).sum
    ∧ ((generateReport V C).rows.map (fun r => r.bucket.fees.taxOnSales)).sum
        = ((V ++ C).map (fun a => a.fees.taxOnSales)).sum
    ∧ ((generateReport V C).rows.map (fun r => r.bucket.fees.taxOnBookingFees)).sum
        = ((V ++ C).map (fun a => a.fees.taxOnBookingFees)).sum := by
  exact ⟨rows_proj_sum (fun b => b.totalPaid) (fun a => a.paid)
      (fun k => rfl) (fun b a => rfl) V C,
    rows_proj_sum (fun b => b.fees.humanitixPassedOnFees)
      (fun a => a.fees.humanitixPassedOnFees) (fun k => rfl) (fun b a => rfl) V C,
    rows_proj_sum (fun b => b.fees.humanitixAbsorbedFees)
      (fun a => a.fees.humanitixAbsorbedFees) (fun k => rfl) (fun b a => rfl) V C,
    rows_proj_sum (fun b => b.fees.amexSurcharge)
      (fun a => a.fees.amexSurcharge) (fun k => rfl) (fun b a => rfl) V C,
    rows_proj_sum (fun b => b.fees.customTax)
      (fun a => a.fees.customTax) (fun k => rfl) (fun b a => rfl) V C,
    rows_proj_sum (fun b => b.fees.zipFeeAbsorbed)
      (fun a => a.fees.zipFeeAbsorbed) (fun k => rfl) (fun b a => rfl) V C,
    rows_proj_sum (fun b => b.fees.afterpayFeeAbsorbed)
      (fun a => a.fees.afterpayFeeAbsorbed) (fun k => rfl) (fun b a => rfl) V C,
    rows_proj_sum (fun b => b.fees.refunds)
      (fun a => a.fees.refunds) (fun k => rfl) (fun b a => rfl) V C,
    rows_proj_sum (fun b => b.fees.feeRebate)
      (fun a => a.fees.feeRebate) (fun k => rfl) (fun b a => rfl) V C,
    rows_proj_sum (fun b => b.fees.yourEarnings)
      (fun a => a.fees.yourEarnings) (fun k => rfl) (fun b a => rfl) V C,
    rows_proj_sum (fun b => b.fees.refundedFees)
      (fun a => a.fees.refundedFees) (fun k => rfl) (fun b a => rfl) V C,
    rows_proj_sum (fun b => b.fees.discountRedeemed)
      (fun a => a.fees.discountRedeemed) (fun k => rfl) (fun b a => rfl) V C,
    rows_proj_sum (fun b => b.fees.taxOnSales)
      (fun a => a.fees.taxOnSales) (fun k => rfl) (fun b a => rfl) V C,
    rows_proj_sum (fun b => b.fees.taxOnBookingFees)
      (fun a => a.fees.taxOnBookingFees) (fun k => rfl) (fun b a => rfl) V C⟩

theorem sum_map_one (l : List AttendeeRow) : (l.map (fun _ => (1 : Nat))).sum = l.length := by
  induction l with
  | nil => rfl
  | cons a t ih => simp [ih, Nat.add_comm]

/-- The `validCount` weight of one record. -/
def validWeight (a : AttendeeRow) : Nat :=
  if a.status = AttendeeStatus.Valid then 1 else 0

/-- The `cancelledCount` weight of one record. -/
def cancelledWeight (a : AttendeeRow) : Nat :=
  if a.status = AttendeeStatus.Valid then 0 else 1

theorem validCount_step (b : Bucket) (a : AttendeeRow) :
    (b.accumulate a).validCount = b.validCount + validWeight a := by
  cases h : a.status <;> simp [Bucket.accumulate, validWeight, h]

theorem cancelledCount_step (b : Bucket) (a : AttendeeRow) :
    (b.accumulate a).cancelledCount = b.cancelledCount + cancelledWeight a := by
  cases h : a.status <;> simp [Bucket.accumulate, cancelledWeight, h]

/-- C2. When every record of `validAttendees` has status `Valid` and every
record of `cancelledAttendees` has status `Cancelled`, the sum of
`validCount` over `rows` equals `validAttendees.length` and the sum of
`cancelledCount` over `rows` equals `cancelledAttendees.length`. -/
theorem c2_count_conservation (V C : List AttendeeRow)
    (hV : ∀ a ∈ V, a.status = AttendeeStatus.Valid)
    (hC : ∀ a ∈ C, a.status = AttendeeStatus.Cancelled) :
    ((generateReport V C).rows.map (fun r => r.bucket.validCount)).sum = V.length
    ∧ ((generateReport V C).rows.map (fun r => r.bucket.cancelledCount)).sum = C.length := by
  constructor
  · rw [rows_proj_sum (fun b => b.validCount) validWeight (fun k => rfl) validCount_step V C]
    rw [List.map_append, List.sum_append]
    have h1 : V.map validWeight = V.map (fun _ => (1 : Nat)) :=
      List.map_congr_left (fun a ha => by simp [validWeight, hV a ha])
    have h2 : C.map validWeight = C.map (fun _ => (0 : Nat)) :=
      List.map_congr_left (fun a ha => by simp [validWeight, hC a ha])
    rw [h1, h2, sum_map_one]
    simp
  · rw [rows_proj_sum (fun b => b.cancelledCount) cancelledWeight (fun k => rfl)
      cancelledCount_step V C]
    rw [List.map_append, List.sum_append]
    have h1 : V.map cancelledWeight = V.map (fun _ => (0 : Nat)) :=
      List.map_congr_left (fun a ha => by simp [cancelledWeight, hV a ha])
    have h2 : C.map cancelledWeight = C.map (fun _ => (1 : Nat)) :=
      List.map_congr_left (fun a ha => by simp [cancelledWeight, hC a ha])
    rw [h1, h2, sum_map_one]
    simp

/-- A valid GA record paying 100 through Stripe online. -/
def recGA : AttendeeRow :=
  { eventName := "Launch Party", ticketType := "GA", paid := 100
    status := AttendeeStatus.Valid, gateway := some "Stripe"
    salesChannel := some "Online" }

/-- A cancelled VIP record paying 200 through PayPal, with no sales channel. -/
def recVIP : AttendeeRow :=
  { eventName := "Launch Party", ticketType := "VIP", paid := 200
    status := AttendeeStatus.Cancelled, gateway := some "PayPal" }

theorem c2_count_conservation_witness :
    ((generateReport [recGA] [recVIP]).rows.map (fun r => r.bucket.validCount)).sum = 1
    ∧ ((generateReport [recGA] [recVIP]).rows.map (fun r => r.bucket.cancelledCount)).sum = 1 :=
  c2_count_conservation [recGA] [recVIP] (by decide) (by decide)

/-- C7. The report's `eventName` is the `eventName` of the first valid
attendee when the valid list is non-empty, else of the first cancelled
attendee when that list is non-empty, else the empty string. -/
theorem c7_eventName_policy (V C : List AttendeeRow) :
    (generateReport V C).eventName
      = match V.head? with
        | some a => a.eventName
        | none =>
          match C.head? with
          | some a => a.eventName
          | none => "" := by
  cases V <;> cases C <;> rfl

/-- A plain set of number renderers, used only to pick concrete columns in
counterexamples and witnesses (the verified column properties do not depend
on the renderers). -/
def fmtPlain : CsvFormatters :=
  { currencyDisplay := fun _ => ""
    fixedTwo := fun _ => ""
    numberToString := fun _ => "" }

/-- The id of the primary key column of a view. -/
def primaryKeyId : PrimaryDimension → String
  | PrimaryDimension.ticketType => "ticketType"
  | PrimaryDimension.gateway => "gateway"

/-- The id of the breakdown key column of a view (the other dimension). -/
def breakdownKeyId : PrimaryDimension → String
  | PrimaryDimension.ticketType => "gateway"
  | PrimaryDimension.gateway => "ticketType"

def primaryKeyLabel : PrimaryDimension → String
  | PrimaryDimension.ticketType => "Ticket Type"
  | PrimaryDimension.gateway => "Gateway"

def breakdownKeyLabel : PrimaryDimension → String
  | PrimaryDimension.ticketType => "Gateway"
  | PrimaryDimension.gateway => "Ticket Type"

/-- The id/label pairs of the fixed metric block, in the canonical order of
the data model: paid, the two counts, then the 13 fee fields. -/
def metricIdLabels : List (String × String) :=
  [("totalPaid", "Paid"), ("validCount", "Valid Tickets"),
   ("cancelledCount", "Cancelled Tickets"),
   ("humanitixPassedOnFees", "Humanitix passed-on fees"),
   ("humanitixAbsorbedFees", "Humanitix absorbed fees"),
   ("amexSurcharge", "Amex surcharge"), ("customTax", "Custom tax"),
   ("zipFeeAbsorbed", "Zip fee(absorbed)"), ("afterpayFeeAbsorbed", "Afterpay fee(absorbed)"),
   ("refunds", "Refunds"), ("feeRebate", "Fee rebate"), ("yourEarnings", "Your earnings"),
   ("refundedFees", "Refunded fees"), ("discountRedeemed", "Discount redeemed"),
   ("taxOnSales", "Tax on sales"), ("taxOnBookingFees", "Tax on booking fees")]

/-- C4 counterexample. The claim (and §4.2 of the spec) says the metric block
after the key columns has 15 columns, so a breakdown-free view would have
1 + 15 = 16 columns; the code pushes 16 metric columns (paid, the two counts
and the 13 fee fields), so the view has 17. -/
theorem c4_counterexample :
    ¬(getColumnsForView fmtPlain PrimaryDimension.ticketType false).length = 1 + 15 := by
  decide

/-- C4 (amended: the metric block has 16 columns — paid, valid count,
cancelled count and the 13 fee fields — not 15). `getColumnsForView` returns,
in fixed order, the primary-dimension key column, then (when `hasBreakdown`)
the breakdown-dimension key column, then the 16 metric columns in the
canonical order of the data model; the function is pure, so the order is
stable across calls. -/
theorem c4_columns_for_view (f : CsvFormatters) (pd : PrimaryDimension) (hb : Bool) :
    (getColumnsForView f pd hb).map (fun c => (c.id, c.label))
      = (primaryKeyId pd, primaryKeyLabel pd)
          :: ((if hb then [(breakdownKeyId pd, breakdownKeyLabel pd)] else [])
              ++ metricIdLabels)
    ∧ metricIdLabels.length = 16 := by
  cases pd <;> cases hb <;> exact ⟨rfl, rfl⟩

theorem flatMap_congr {α β : Type} (l : List α) (f g : α → List β)
    (h : ∀ x ∈ l, f x = g x) : l.flatMap f = l.flatMap g := by
  induction l with
  | nil => rfl
  | cons a t ih =>
    simp only [List.flatMap_cons, h a (List.mem_cons_self a t)]
    rw [ih (fun x hx => h x (List.mem_cons_of_mem a hx))]

/-- Modelled from the spec (§4.3): the view `generateCsv` walks for a primary
dimension. -/
def specViewOf (pd : PrimaryDimension) (rd : ReportData) : List ReportRow :=
  match pd with
  | PrimaryDimension.ticketType => rd.rows
  | PrimaryDimension.gateway => rd.gatewayRows

/-- Modelled from the spec (§4.3): the breakdown array of a primary row that
corresponds to the selected primary dimension. -/
def specBreakdownOf (pd : PrimaryDimension) (r : ReportRow) : Option (List Bucket) :=
  match pd with
  | PrimaryDimension.ticketType => r.gatewayBreakdown
  | PrimaryDimension.gateway => r.ticketTypeBreakdown

/-- Modelled from the spec (§4.3): one summary CSV line, every column sourced
from the primary row. -/
def specSummaryLine (f : CsvFormatters) (cols : List ReportColumn) (r : ReportRow) : String :=
  String.intercalate ","
    (cols.map (fun col => escapeCsvField (formatColumnValueForCsv f col r.bucket)))

/-- Modelled from the spec (§4.3): one breakdown CSV line — the
primary-dimension column sourced from the primary row, every other column
(the breakdown key column and all metric columns) sourced from the breakdown
entry. -/
def specEntryLine (f : CsvFormatters) (cols : List ReportColumn) (pd : PrimaryDimension)
    (r : ReportRow) (entry : Bucket) : String :=
  String.intercalate ","
    (cols.map (fun col =>
      escapeCsvField
        (formatColumnValueForCsv f col
          (if col.id = primaryKeyId pd then r.bucket else entry))))

/-- Modelled from the spec (§4.3): the lines one primary row contributes —
one line per breakdown entry when a breakdown is selected and the row's
array is non-empty, exactly one summary line otherwise. -/
def specRowLines (f : CsvFormatters) (cols : List ReportColumn) (pd : PrimaryDimension)
    (hasBreakdown : Bool) (r : ReportRow) : List String :=
  match specBreakdownOf pd r with
  | some bd =>
    if hasBreakdown && bd.length > 0 then bd.map (specEntryLine f cols pd r)
    else [specSummaryLine f cols r]
  | none => [specSummaryLine f cols r]

/-- C5. The CSV text consists of the header line followed by, for each
primary row of the selected view: one line per breakdown entry (primary
column from the row, breakdown column and all metric columns from the entry)
when a breakdown is selected and the row's array is non-empty, and exactly
one summary line sourced entirely from the row otherwise. -/
theorem c5_generateCsv_lines (f : CsvFormatters) (pd : PrimaryDimension)
    (bg bt : Bool) (rd : ReportData) :
    generateCsvLines f pd bg bt rd
      = String.intercalate ","
          (((getColumnsForView f pd (hasBreakdownFlag pd bg bt)).map (fun c => c.label)).map
            escapeCsvField)
        :: (specViewOf pd rd).flatMap
            (specRowLines f (getColumnsForView f pd (hasBreakdownFlag pd bg bt)) pd
              (hasBreakdownFlag pd bg bt)) := by
  cases pd with
  | ticketType =>
    dsimp only [generateCsvLines]
    congr 1
    apply flatMap_congr
    intro row _
    simp only [specRowLines, specBreakdownOf]
    cases hbd : row.gatewayBreakdown with
    | none => rfl
    | some bd =>
      by_cases hc : (hasBreakdownFlag PrimaryDimension.ticketType bg bt
          && decide (bd.length > 0)) = true
      · simp only [hc, if_true, ite_true]
        apply List.map_congr_left
        intro entry _
        unfold specEntryLine
        congr 1
        apply List.map_congr_left
        intro col _
        by_cases h1 : col.id = "ticketType"
        · simp [h1, primaryKeyId]
        · by_cases h2 : col.id = "gateway" <;> simp [h1, h2, primaryKeyId]
      · simp only [hc, if_false, ite_false]
        rfl
  | gateway =>
    dsimp only [generateCsvLines]
    congr 1
    apply flatMap_congr
    intro row _
    simp only [specRowLines, specBreakdownOf]
    cases hbd : row.ticketTypeBreakdown with
    | none => rfl
    | some bd =>
      by_cases hc : (hasBreakdownFlag PrimaryDimension.gateway bg bt
          && decide (bd.length > 0)) = true
      · simp only [hc, if_true, ite_true]
        apply List.map_congr_left
        intro entry _
        unfold specEntryLine
        congr 1
        apply List.map_congr_left
        intro col _
        by_cases h1 : col.id = "gateway"
        · simp [h1, primaryKeyId]
        · by_cases h2 : col.id = "ticketType" <;> simp [h1, h2, primaryKeyId]
      · simp only [hc, if_false, ite_false]
        rfl

/-- C8. A record whose gateway (respectively sales-channel) field is
null/undefined or empty is folded into the ticket-type primary bucket for its
ticket type — its paid amount, status count and fee fields are all added —
but leaves the gateway (respectively sales-channel) primary map and every
breakdown map involving that dimension untouched. The function is total, so
such a record is not an error and `generateReport` still returns. -/
theorem c8_missing_dimension_skipped (s : AggState) (a : AttendeeRow) :
    ((presentVal a.gateway = none →
        (processAttendee s a).gatewayMap = s.gatewayMap
        ∧ (processAttendee s a).gatewayBreakdownMap = s.gatewayBreakdownMap
        ∧ (processAttendee s a).ticketTypeBreakdownMap = s.ticketTypeBreakdownMap
        ∧ (processAttendee s a).salesChannelBreakdownMapForGateway
            = s.salesChannelBreakdownMapForGateway
        ∧ (processAttendee s a).gatewayBreakdownMapForSalesChannel
            = s.gatewayBreakdownMapForSalesChannel)
      ∧ (presentVal a.salesChannel = none →
        (processAttendee s a).salesChannelMap = s.salesChannelMap
        ∧ (processAttendee s a).salesChannelBreakdownMapForTicket
            = s.salesChannelBreakdownMapForTicket
        ∧ (processAttendee s a).ticketTypeBreakdownMapForSalesChannel
            = s.ticketTypeBreakdownMapForSalesChannel
        ∧ (processAttendee s a).salesChannelBreakdownMapForGateway
            = s.salesChannelBreakdownMapForGateway
        ∧ (processAttendee s a).gatewayBreakdownMapForSalesChannel
            = s.gatewayBreakdownMapForSalesChannel))
    ∧ smapGet (processAttendee s a).ticketTypeMap a.ticketType
        = some (((smapGet s.ticketTypeMap a.ticketType).getD
            (zeroBucket a.ticketType)).accumulate a) := by
  refine ⟨⟨?_, ?_⟩, ?_⟩
  · intro hg
    cases hc : presentVal a.salesChannel <;>
      simp [processAttendee, hg, hc]
  · intro hc
    cases hg : presentVal a.gateway <;>
      simp [processAttendee, hg, hc]
  · have : (processAttendee s a).ticketTypeMap = upsertBucket s.ticketTypeMap a.ticketType a :=
      rfl
    rw [this, upsertBucket_eq, smapGet_smapSet_self]

/-- A ticket record with neither gateway nor sales channel. -/
def recNoDims : AttendeeRow :=
  { eventName := "Launch Party", ticketType := "GA", paid := 40
    status := AttendeeStatus.Valid }

theorem c8_missing_dimension_skipped_witness :
    ((processAttendee initAggState recNoDims).gatewayMap = initAggState.gatewayMap
      ∧ (processAttendee initAggState recNoDims).salesChannelMap = initAggState.salesChannelMap)
    ∧ smapGet (processAttendee initAggState recNoDims).ticketTypeMap recNoDims.ticketType
        = some (((smapGet initAggState.ticketTypeMap recNoDims.ticketType).getD
            (zeroBucket recNoDims.ticketType)).accumulate recNoDims) := by
  have h := c8_missing_dimension_skipped initAggState recNoDims
  exact ⟨⟨(h.1.1 (by decide)).1, (h.1.2 (by decide)).1⟩, h.2⟩

theorem aggBucket_perm (k : String) {l1 l2 : List AttendeeRow} (h : l1.Perm l2) :
    aggBucket k l1 = aggBucket k l2 :=
  h.foldl_eq (zeroBucket k)

theorem sortedKeysOf_perm_eq (sel : AttendeeRow → Option String) {l l' : List AttendeeRow}
    (h : l.Perm l') : sortedKeysOf sel l' = sortedKeysOf sel l := by
  have hmem : ∀ k, k ∈ keysOf sel l' ↔ k ∈ keysOf sel l := by
    intro k
    rw [mem_keysOf, mem_keysOf]
    constructor
    · rintro ⟨a, ha, hk⟩; exact ⟨a, h.mem_iff.mpr ha, hk⟩
    · rintro ⟨a, ha, hk⟩; exact ⟨a, h.mem_iff.mp ha, hk⟩
  have hperm : (keysOf sel l').Perm (keysOf sel l) :=
    (List.perm_ext_iff_of_nodup (nodup_keysOf sel l') (nodup_keysOf sel l)).mpr hmem
  exact List.eq_of_perm_of_sorted
    ((localeSort_perm _).trans (hperm.trans (localeSort_perm _).symm))
    (localeSort_sorted _) (localeSort_sorted _)

theorem recordsFor_aggBucket_perm (sel : AttendeeRow → Option String) (k : String)
    {l l' : List AttendeeRow} (h : l.Perm l') :
    aggBucket k (recordsFor sel k l') = aggBucket k (recordsFor sel k l) :=
  aggBucket_perm k (h.filter (matchesKey sel k)).symm

theorem breakdownFor_perm (sel2 : AttendeeRow → Option (String × String))
    (GK : List String) {l l' : List AttendeeRow} (h : l.Perm l') (ko : String) :
    breakdownFor sel2 GK ko l' = breakdownFor sel2 GK ko l := by
  unfold breakdownFor
  congr 1
  apply List.map_congr_left
  intro ki _
  exact aggBucket_perm ki (h.filter (fun a => sel2 a == some (ko, ki))).symm

/-- C6. Permuting the elements within each input list leaves all three report
views unchanged: every primary row and every breakdown entry carries the same
aggregate sums (indeed, the row lists including their breakdown arrays are
identical). -/
theorem c6_permutation_invariance (V C V' C' : List AttendeeRow)
    (hV : V.Perm V') (hC : C.Perm C') :
    (generateReport V' C').rows = (generateReport V C).rows
    ∧ (generateReport V' C').gatewayRows = (generateReport V C).gatewayRows
    ∧ (generateReport V' C').salesChannelRows = (generateReport V C).salesChannelRows := by
  have hl : (V ++ C).Perm (V' ++ C') := hV.append hC
  refine ⟨?_, ?_, ?_⟩
  · rw [generateReport_rows, generateReport_rows, sortedKeysOf_perm_eq selTicket hl]
    apply List.map_congr_left
    intro t ht
    rw [recordsFor_aggBucket_perm selTicket t hl,
      sortedKeysOf_perm_eq selGateway hl, sortedKeysOf_perm_eq selSalesChannel hl,
      breakdownFor_perm selTicketGateway _ hl, breakdownFor_perm selTicketSalesChannel _ hl]
  · rw [generateReport_gatewayRows, generateReport_gatewayRows,
      sortedKeysOf_perm_eq selGateway hl]
    apply List.map_congr_left
    intro g hg
    rw [recordsFor_aggBucket_perm selGateway g hl,
      sortedKeysOf_perm_eq selTicket hl, sortedKeysOf_perm_eq selSalesChannel hl,
      breakdownFor_perm selGatewayTicket _ hl, breakdownFor_perm selGatewaySalesChannel _ hl]
  · rw [generateReport_salesChannelRows, generateReport_salesChannelRows,
      sortedKeysOf_perm_eq selSalesChannel hl]
    apply List.map_congr_left
    intro c hc
    rw [recordsFor_aggBucket_perm selSalesChannel c hl,
      sortedKeysOf_perm_eq selTicket hl, sortedKeysOf_perm_eq selGateway hl,
      breakdownFor_perm selSalesChannelTicket _ hl, breakdownFor_perm selSalesChannelGateway _ hl]

theorem c6_permutation_invariance_witness :
    (generateReport [recVIP, recGA] []).rows = (generateReport [recGA, recVIP] []).rows
    ∧ (generateReport [recVIP, recGA] []).gatewayRows
        = (generateReport [recGA, recVIP] []).gatewayRows
    ∧ (generateReport [recVIP, recGA] []).salesChannelRows
        = (generateReport [recGA, recVIP] []).salesChannelRows :=
  c6_permutation_invariance [recGA, recVIP] [] [recVIP, recGA] [] (by decide) (by decide)

theorem attachBreakdown_some {L bd : List Bucket} (h : attachBreakdown L = some bd) :
    bd = L := by
  unfold attachBreakdown at h
  by_cases hl : L.length > 0
  · simp [hl] at h
    exact h.symm
  · simp [hl] at h

theorem attachBreakdown_eq_none {L : List Bucket} :
    attachBreakdown L = none ↔ L = [] := by
  unfold attachBreakdown
  by_cases hl : L.length > 0
  · simp [hl]
    exact List.ne_nil_of_length_pos hl
  · simp [hl]
    exact List.eq_nil_of_length_eq_zero (Nat.eq_zero_of_not_pos hl)

/-- Summing an additive projection over a densified ticket-type breakdown of
the row with outer key `ko` collapses, cell by cell, to the projection of the
row's own aggregate. -/
theorem rollup_sum {M : Type} [AddCommMonoid M] (p : Bucket → M) (w : AttendeeRow → M)
    (hz : ∀ k, p (zeroBucket k) = 0) (hstep : ∀ b a, p (b.accumulate a) = p b + w a)
    (sel2 : AttendeeRow → Option (String × String)) (selO : AttendeeRow → Option String)
    (l : List AttendeeRow) (ko : String)
    (hcov : ∀ a ∈ l, ∀ ki, innerSel sel2 ko a = some ki → selTicket a = some ki)
    (hfil : l.filter (fun a => (innerSel sel2 ko a).isSome) = recordsFor selO ko l) :
    (((sortedKeysOf selTicket l).map
        (fun ki => aggBucket ki (recordsFor2 sel2 ko ki l))).map p).sum
      = p (aggBucket ko (recordsFor selO ko l)) := by
  rw [List.map_map]
  have hcongr : (sortedKeysOf selTicket l).map
        (p ∘ fun ki => aggBucket ki (recordsFor2 sel2 ko ki l))
      = (sortedKeysOf selTicket l).map
        (fun ki => p (aggBucket ki (recordsFor (innerSel sel2 ko) ki l))) := by
    apply List.map_congr_left
    intro ki _
    simp only [Function.comp, recordsFor_innerSel]
  rw [hcongr]
  rw [sum_over_keys p w hz hstep (innerSel sel2 ko) l (sortedKeysOf selTicket l)
    (sortedKeysOf_nodup selTicket l)
    (fun a ha ki hki => (mem_sortedKeysOf selTicket l ki).mpr ⟨a, ha, hcov a ha ki hki⟩)]
  rw [hfil, aggBucket_proj p w hz hstep ko]

theorem innerSel_selGatewayTicket_cov (g : String) (a : AttendeeRow) (ki : String)
    (h : innerSel selGatewayTicket g a = some ki) : selTicket a = some ki := by
  unfold innerSel selGatewayTicket at h
  cases hg : presentVal a.gateway with
  | none => simp [hg] at h
  | some g' =>
    simp only [hg] at h
    by_cases hgg : g' = g
    · simp only [hgg, if_pos rfl] at h
      simpa [selTicket] using h
    · simp [hgg] at h

theorem innerSel_selSalesChannelTicket_cov (c : String) (a : AttendeeRow) (ki : String)
    (h : innerSel selSalesChannelTicket c a = some ki) : selTicket a = some ki := by
  unfold innerSel selSalesChannelTicket at h
  cases hc : presentVal a.salesChannel with
  | none => simp [hc] at h
  | some c' =>
    simp only [hc] at h
    by_cases hcc : c' = c
    · simp only [hcc, if_pos rfl] at h
      simpa [selTicket] using h
    · simp [hcc] at h

theorem filter_innerSel_selGatewayTicket (g : String) (l : List AttendeeRow) :
    l.filter (fun a => (innerSel selGatewayTicket g a).isSome) = recordsFor selGateway g l := by
  unfold recordsFor
  apply List.filter_congr
  intro a _
  unfold innerSel selGatewayTicket matchesKey selGateway
  cases hg : presentVal a.gateway with
  | none => simp
  | some g' => by_cases hgg : g' = g <;> simp [hgg]

theorem filter_innerSel_selSalesChannelTicket (c : String) (l : List AttendeeRow) :
    l.filter (fun a => (innerSel selSalesChannelTicket c a).isSome)
      = recordsFor selSalesChannel c l := by
  unfold recordsFor
  apply List.filter_congr
  intro a _
  unfold innerSel selSalesChannelTicket matchesKey selSalesChannel
  cases hc : presentVal a.salesChannel with
  | none => simp
  | some c' => by_cases hcc : c' = c <;> simp [hcc]

/-- The 16-fold exact roll-up of a breakdown array against its row's bucket:
each metric summed over the entries equals the row's own total. -/
def rollupExact (bd : List Bucket) (b : Bucket) : Prop :=
  (bd.map (fun e => e.totalPaid)).sum = b.totalPaid
  ∧ (bd.map (fun e => e.validCount)).sum = b.validCount
  ∧ (bd.map (fun e => e.cancelledCount)).sum = b.cancelledCount
  ∧ (bd.map (fun e => e.fees.humanitixPassedOnFees)).sum = b.fees.humanitixPassedOnFees
  ∧ (bd.map (fun e => e.fees.humanitixAbsorbedFees)).sum = b.fees.humanitixAbsorbedFees
  ∧ (bd.map (fun e => e.fees.amexSurcharge)).sum = b.fees.amexSurcharge
  ∧ (bd.map (fun e => e.fees.customTax)).sum = b.fees.customTax
  ∧ (bd.map (fun e => e.fees.zipFeeAbsorbed)).sum = b.fees.zipFeeAbsorbed
  ∧ (bd.map (fun e => e.fees.afterpayFeeAbsorbed)).sum = b.fees.afterpayFeeAbsorbed
  ∧ (bd.map (fun e => e.fees.refunds)).sum = b.fees.refunds
  ∧ (bd.map (fun e => e.fees.feeRebate)).sum = b.fees.feeRebate
  ∧ (bd.map (fun e => e.fees.yourEarnings)).sum = b.fees.yourEarnings
  ∧ (bd.map (fun e => e.fees.refundedFees)).sum = b.fees.refundedFees
  ∧ (bd.map (fun e => e.fees.discountRedeemed)).sum = b.fees.discountRedeemed
  ∧ (bd.map (fun e => e.fees.taxOnSales)).sum = b.fees.taxOnSales
  ∧ (bd.map (fun e => e.fees.taxOnBookingFees)).sum = b.fees.taxOnBookingFees

/-- C9. Every gateway primary row and every sales-channel primary row that
carries a `ticketTypeBreakdown` satisfies an exact roll-up: `totalPaid`, both
counts and each of the 13 fee fields summed over the breakdown entries equal
the row's own totals (every record has a ticket type, so no contribution
escapes the ticket-type cells). -/
theorem c9_ticket_rollup_exact (V C : List AttendeeRow) :
    (∀ r ∈ (generateReport V C).gatewayRows, ∀ bd,
      r.ticketTypeBreakdown = some bd → rollupExact bd r.bucket)
    ∧ (∀ r ∈ (generateReport V C).salesChannelRows, ∀ bd,
      r.ticketTypeBreakdown = some bd → rollupExact bd r.bucket) := by
  constructor
  · intro r hr bd hbd
    rw [generateReport_gatewayRows] at hr
    obtain ⟨g, hg, rfl⟩ := List.mem_map.mp hr
    simp only [breakdownFor] at hbd
    have hbdL := attachBreakdown_some hbd
    subst hbdL
    have key : ∀ {M : Type} [AddCommMonoid M] (p : Bucket → M) (w : AttendeeRow → M),
        (∀ k, p (zeroBucket k) = 0) → (∀ b a, p (b.accumulate a) = p b + w a) →
        (((sortedKeysOf selTicket (V ++ C)).map
            (fun ki => aggBucket ki (recordsFor2 selGatewayTicket g ki (V ++ C)))).map p).sum
          = p (aggBucket g (recordsFor selGateway g (V ++ C))) := by
      intro M _ p w hz hstep
      exact rollup_sum p w hz hstep selGatewayTicket selGateway (V ++ C) g
        (fun a ha ki hki => innerSel_selGatewayTicket_cov g a ki hki)
        (filter_innerSel_selGatewayTicket g (V ++ C))
    exact ⟨key (fun e => e.totalPaid) (fun a => a.paid) (fun k => rfl) (fun b a => rfl),
      key (fun e => e.validCount) validWeight (fun k => rfl) validCount_step,
      key (fun e => e.cancelledCount) cancelledWeight (fun k => rfl) cancelledCount_step,
      key (fun e => e.fees.humanitixPassedOnFees) (fun a => a.fees.humanitixPassedOnFees)
        (fun k => rfl) (fun b a => rfl),
      key (fun e => e.fees.humanitixAbsorbedFees) (fun a => a.fees.humanitixAbsorbedFees)
        (fun k => rfl) (fun b a => rfl),
      key (fun e => e.fees.amexSurcharge) (fun a => a.fees.amexSurcharge)
        (fun k => rfl) (fun b a => rfl),
      key (fun e => e.fees.customTax) (fun a => a.fees.customTax)
        (fun k => rfl) (fun b a => rfl),
      key (fun e => e.fees.zipFeeAbsorbed) (fun a => a.fees.zipFeeAbsorbed)
        (fun k => rfl) (fun b a => rfl),
      key (fun e => e.fees.afterpayFeeAbsorbed) (fun a => a.fees.afterpayFeeAbsorbed)
        (fun k => rfl) (fun b a => rfl),
      key (fun e => e.fees.refunds) (fun a => a.fees.refunds)
        (fun k => rfl) (fun b a => rfl),
      key (fun e => e.fees.feeRebate) (fun a => a.fees.feeRebate)
        (fun k => rfl) (fun b a => rfl),
      key (fun e => e.fees.yourEarnings) (fun a => a.fees.yourEarnings)
        (fun k => rfl) (fun b a => rfl),
      key (fun e => e.fees.refundedFees) (fun a => a.fees.refundedFees)
        (fun k => rfl) (fun b a => rfl),
      key (fun e => e.fees.discountRedeemed) (fun a => a.fees.discountRedeemed)
        (fun k => rfl) (fun b a => rfl),
      key (fun e => e.fees.taxOnSales) (fun a => a.fees.taxOnSales)
        (fun k => rfl) (fun b a => rfl),
      key (fun e => e.fees.taxOnBookingFees) (fun a => a.fees.taxOnBookingFees)
        (fun k => rfl) (fun b a => rfl)⟩
  · intro r hr bd hbd
    rw [generateReport_salesChannelRows] at hr
    obtain ⟨c, hc, rfl⟩ := List.mem_map.mp hr
    simp only [breakdownFor] at hbd
    have hbdL := attachBreakdown_some hbd
    subst hbdL
    have key : ∀ {M : Type} [AddCommMonoid M] (p : Bucket → M) (w : AttendeeRow → M),
        (∀ k, p (zeroBucket k) = 0) → (∀ b a, p (b.accumulate a) = p b + w a) →
        (((sortedKeysOf selTicket (V ++ C)).map
            (fun ki => aggBucket ki (recordsFor2 selSalesChannelTicket c ki (V ++ C)))).map p).sum
          = p (aggBucket c (recordsFor selSalesChannel c (V ++ C))) := by
      intro M _ p w hz hstep
      exact rollup_sum p w hz hstep selSalesChannelTicket selSalesChannel (V ++ C) c
        (fun a ha ki hki => innerSel_selSalesChannelTicket_cov c a ki hki)
        (filter_innerSel_selSalesChannelTicket c (V ++ C))
    exact ⟨key (fun e => e.totalPaid) (fun a => a.paid) (fun k => rfl) (fun b a => rfl),
      key (fun e => e.validCount) validWeight (fun k => rfl) validCount_step,
      key (fun e => e.cancelledCount) cancelledWeight (fun k => rfl) cancelledCount_step,
      key (fun e => e.fees.humanitixPassedOnFees) (fun a => a.fees.humanitixPassedOnFees)
        (fun k => rfl) (fun b a => rfl),
      key (fun e => e.fees.humanitixAbsorbedFees) (fun a => a.fees.humanitixAbsorbedFees)
        (fun k => rfl) (fun b a => rfl),
      key (fun e => e.fees.amexSurcharge) (fun a => a.fees.amexSurcharge)
        (fun k => rfl) (fun b a => rfl),
      key (fun e => e.fees.customTax) (fun a => a.fees.customTax)
        (fun k => rfl) (fun b a => rfl),
      key (fun e => e.fees.zipFeeAbsorbed) (fun a => a.fees.zipFeeAbsorbed)
        (fun k => rfl) (fun b a => rfl),
      key (fun e => e.fees.afterpayFeeAbsorbed) (fun a => a.fees.afterpayFeeAbsorbed)
        (fun k => rfl) (fun b a => rfl),
      key (fun e => e.fees.refunds) (fun a => a.fees.refunds)
        (fun k => rfl) (fun b a => rfl),
      key (fun e => e.fees.feeRebate) (fun a => a.fees.feeRebate)
        (fun k => rfl) (fun b a => rfl),
      key (fun e => e.fees.yourEarnings) (fun a => a.fees.yourEarnings)
        (fun k => rfl) (fun b a => rfl),
      key (fun e => e.fees.refundedFees) (fun a => a.fees.refundedFees)
        (fun k => rfl) (fun b a => rfl),
      key (fun e => e.fees.discountRedeemed) (fun a => a.fees.discountRedeemed)
        (fun k => rfl) (fun b a => rfl),
      key (fun e => e.fees.taxOnSales) (fun a => a.fees.taxOnSales)
        (fun k => rfl) (fun b a => rfl),
      key (fun e => e.fees.taxOnBookingFees) (fun a => a.fees.taxOnBookingFees)
        (fun k => rfl) (fun b a => rfl)⟩



/-- The PayPal gateway row produced for inputs `[recGA]`, `[recVIP]`. -/
def payPalRow : ReportRow :=
  { bucket := { key := "PayPal", totalPaid := 200, validCount := 0, cancelledCount := 1
                fees := initZeroNumericFields }
    gatewayBreakdown := none
    salesChannelBreakdown := some [zeroBucket "Online"]
    ticketTypeBreakdown :=
      some [zeroBucket "GA",
            { key := "VIP", totalPaid := 200, validCount := 0, cancelledCount := 1
              fees := initZeroNumericFields }] }

/-- The Stripe gateway row produced for inputs `[recGA]`, `[recVIP]`. -/
def stripeRow : ReportRow :=
  { bucket := { key := "Stripe", totalPaid := 100, validCount := 1, cancelledCount := 0
                fees := initZeroNumericFields }
    gatewayBreakdown := none
    salesChannelBreakdown :=
      some [{ key := "Online", totalPaid := 100, validCount := 1, cancelledCount := 0
              fees := initZeroNumericFields }]
    ticketTypeBreakdown :=
      some [{ key := "GA", totalPaid := 100, validCount := 1, cancelledCount := 0
              fees := initZeroNumericFields },
            zeroBucket "VIP"] }

theorem c9_ticket_rollup_exact_witness :
    rollupExact
      [zeroBucket "GA",
       { key := "VIP", totalPaid := 200, validCount := 0, cancelledCount := 1
         fees := initZeroNumericFields }]
      payPalRow.bucket := by
  have hrows : (generateReport [recGA] [recVIP]).gatewayRows = [payPalRow, stripeRow] := by
    decide
  refine (c9_ticket_rollup_exact [recGA] [recVIP]).1 payPalRow ?_ _ rfl
  rw [hrows]
  exact List.mem_cons_self _ _

/-- A report dimension: the three pivot dimensions a view can be keyed by or
broken down into. -/
inductive ReportDim
  | ticketType
  | gateway
  | salesChannel
deriving DecidableEq

/-- The primary rows of one view of the report. -/
def viewRowsOf (d : ReportDim) (rd : ReportData) : List ReportRow :=
  match d with
  | ReportDim.ticketType => rd.rows
  | ReportDim.gateway => rd.gatewayRows
  | ReportDim.salesChannel => rd.salesChannelRows

/-- The breakdown array of one dimension carried by a primary row. -/
def breakdownFieldOf (d : ReportDim) (r : ReportRow) : Option (List Bucket) :=
  match d with
  | ReportDim.ticketType => r.ticketTypeBreakdown
  | ReportDim.gateway => r.gatewayBreakdown
  | ReportDim.salesChannel => r.salesChannelBreakdown

/-- The record selector of one dimension. -/
def dimSelOf (d : ReportDim) : AttendeeRow → Option String :=
  match d with
  | ReportDim.ticketType => selTicket
  | ReportDim.gateway => selGateway
  | ReportDim.salesChannel => selSalesChannel

theorem selTicketGateway_iff (a : AttendeeRow) (ko ki : String) :
    selTicketGateway a = some (ko, ki) ↔ selTicket a = some ko ∧ selGateway a = some ki := by
  unfold selTicketGateway selTicket selGateway
  cases h : presentVal a.gateway <;> simp [h, Prod.ext_iff, and_comm]

theorem selTicketSalesChannel_iff (a : AttendeeRow) (ko ki : String) :
    selTicketSalesChannel a = some (ko, ki)
      ↔ selTicket a = some ko ∧ selSalesChannel a = some ki := by
  unfold selTicketSalesChannel selTicket selSalesChannel
  cases h : presentVal a.salesChannel <;> simp [h, Prod.ext_iff, and_comm]

theorem selGatewayTicket_iff (a : AttendeeRow) (ko ki : String) :
    selGatewayTicket a = some (ko, ki) ↔ selGateway a = some ko ∧ selTicket a = some ki := by
  unfold selGatewayTicket selTicket selGateway
  cases h : presentVal a.gateway <;> simp [h, Prod.ext_iff]

theorem selGatewaySalesChannel_iff (a : AttendeeRow) (ko ki : String) :
    selGatewaySalesChannel a = some (ko, ki)
      ↔ selGateway a = some ko ∧ selSalesChannel a = some ki := by
  unfold selGatewaySalesChannel selGateway selSalesChannel
  cases hg : presentVal a.gateway <;> cases hc : presentVal a.salesChannel <;>
    simp [hg, hc, Prod.ext_iff]

theorem selSalesChannelTicket_iff (a : AttendeeRow) (ko ki : String) :
    selSalesChannelTicket a = some (ko, ki)
      ↔ selSalesChannel a = some ko ∧ selTicket a = some ki := by
  unfold selSalesChannelTicket selSalesChannel selTicket
  cases h : presentVal a.salesChannel <;> simp [h, Prod.ext_iff]

theorem selSalesChannelGateway_iff (a : AttendeeRow) (ko ki : String) :
    selSalesChannelGateway a = some (ko, ki)
      ↔ selSalesChannel a = some ko ∧ selGateway a = some ki := by
  unfold selSalesChannelGateway selSalesChannel selGateway
  cases hc : presentVal a.salesChannel <;> cases hg : presentVal a.gateway <;>
    simp [hc, hg, Prod.ext_iff]

theorem sortedKeysOf_eq_nil_iff (sel : AttendeeRow → Option String) (l : List AttendeeRow) :
    sortedKeysOf sel l = [] ↔ ¬∃ a ∈ l, (sel a).isSome := by
  constructor
  · intro h ⟨a, ha, hs⟩
    obtain ⟨k, hk⟩ := Option.isSome_iff_exists.mp hs
    have : k ∈ sortedKeysOf sel l := (mem_sortedKeysOf sel l k).mpr ⟨a, ha, hk⟩
    rw [h] at this
    exact absurd this (List.not_mem_nil k)
  · intro h
    by_contra hne
    obtain ⟨k, hk⟩ := List.exists_mem_of_ne_nil _ hne
    obtain ⟨a, ha, hs⟩ := (mem_sortedKeysOf sel l k).mp hk
    exact h ⟨a, ha, Option.isSome_iff_exists.mpr ⟨k, hs⟩⟩

/-- The full characterization of one densified breakdown slot. -/
theorem c3_core (l : List AttendeeRow) (sel2 : AttendeeRow → Option (String × String))
    (vsel dsel : AttendeeRow → Option String) (ko : String)
    (hiff : ∀ a ko' ki, sel2 a = some (ko', ki) ↔ vsel a = some ko' ∧ dsel a = some ki) :
    (∀ bd, breakdownFor sel2 (sortedKeysOf dsel l) ko l = some bd →
      bd.map Bucket.key = sortedKeysOf dsel l
      ∧ (bd.map Bucket.key).Sorted (fun x y : String => x ≤ y)
      ∧ (bd.map Bucket.key).Nodup
      ∧ (∀ g, g ∈ bd.map Bucket.key ↔ ∃ a ∈ l, dsel a = some g)
      ∧ (∀ e ∈ bd, (∀ a ∈ l, ¬(vsel a = some ko ∧ dsel a = some e.key))
          → e = zeroBucket e.key))
    ∧ (breakdownFor sel2 (sortedKeysOf dsel l) ko l = none ↔ ¬∃ a ∈ l, (dsel a).isSome) := by
  constructor
  · intro bd hbd
    unfold breakdownFor at hbd
    have hbdL := attachBreakdown_some hbd
    subst hbdL
    have hkeys : ((sortedKeysOf dsel l).map
          (fun ki => aggBucket ki (recordsFor2 sel2 ko ki l))).map Bucket.key
        = sortedKeysOf dsel l := by
      rw [List.map_map]
      exact (List.map_congr_left (fun k _ => aggBucket_key k _)).trans (List.map_id _)
    refine ⟨hkeys, ?_, ?_, ?_, ?_⟩
    · rw [hkeys]; exact localeSort_sorted _
    · rw [hkeys]; exact sortedKeysOf_nodup dsel l
    · intro g; rw [hkeys]; exact mem_sortedKeysOf dsel l g
    · intro e he habs
      obtain ⟨k, hk, hek⟩ := List.mem_map.mp he
      have hkey : e.key = k := by rw [← hek, aggBucket_key]
      have hrec : recordsFor2 sel2 ko e.key l = [] := by
        rw [recordsFor2, List.filter_eq_nil_iff]
        intro a ha
        simp only [beq_iff_eq]
        intro hh
        exact habs a ha ((hiff a ko e.key).mp hh)
      rw [← hek, ← hkey, hrec]
      rfl
  · unfold breakdownFor
    rw [attachBreakdown_eq_none, List.map_eq_nil_iff]
    exact sortedKeysOf_eq_nil_iff dsel l

theorem c3_main_aux (V C : List AttendeeRow) (view dim : ReportDim) (hvd : view ≠ dim) :
    ∀ r ∈ viewRowsOf view (generateReport V C), ∀ bd, breakdownFieldOf dim r = some bd →
      bd.map Bucket.key = sortedKeysOf (dimSelOf dim) (V ++ C)
      ∧ (bd.map Bucket.key).Sorted (fun x y : String => x ≤ y)
      ∧ (bd.map Bucket.key).Nodup
      ∧ (∀ g, g ∈ bd.map Bucket.key ↔ ∃ a ∈ V ++ C, dimSelOf dim a = some g)
      ∧ (∀ e ∈ bd, (∀ a ∈ V ++ C, ¬(dimSelOf view a = some r.bucket.key
          ∧ dimSelOf dim a = some e.key)) → e = zeroBucket e.key) := by
  intro r hr bd hbd
  cases view with
  | ticketType =>
    simp only [viewRowsOf] at hr
    rw [generateReport_rows] at hr
    obtain ⟨ko, hko, rfl⟩ := List.mem_map.mp hr
    cases dim with
    | ticketType => exact absurd rfl hvd
    | gateway =>
      simp only [breakdownFieldOf] at hbd
      have core := (c3_core (V ++ C) selTicketGateway selTicket selGateway ko
        selTicketGateway_iff).1 bd hbd
      simpa only [dimSelOf, aggBucket_key] using core
    | salesChannel =>
      simp only [breakdownFieldOf] at hbd
      have core := (c3_core (V ++ C) selTicketSalesChannel selTicket selSalesChannel ko
        selTicketSalesChannel_iff).1 bd hbd
      simpa only [dimSelOf, aggBucket_key] using core
  | gateway =>
    simp only [viewRowsOf] at hr
    rw [generateReport_gatewayRows] at hr
    obtain ⟨ko, hko, rfl⟩ := List.mem_map.mp hr
    cases dim with
    | gateway => exact absurd rfl hvd
    | ticketType =>
      simp only [breakdownFieldOf] at hbd
      have core := (c3_core (V ++ C) selGatewayTicket selGateway selTicket ko
        selGatewayTicket_iff).1 bd hbd
      simpa only [dimSelOf, aggBucket_key] using core
    | salesChannel =>
      simp only [breakdownFieldOf] at hbd
      have core := (c3_core (V ++ C) selGatewaySalesChannel selGateway selSalesChannel ko
        selGatewaySalesChannel_iff).1 bd hbd
      simpa only [dimSelOf, aggBucket_key] using core
  | salesChannel =>
    simp only [viewRowsOf] at hr
    rw [generateReport_salesChannelRows] at hr
    obtain ⟨ko, hko, rfl⟩ := List.mem_map.mp hr
    cases dim with
    | salesChannel => exact absurd rfl hvd
    | ticketType =>
      simp only [breakdownFieldOf] at hbd
      have core := (c3_core (V ++ C) selSalesChannelTicket selSalesChannel selTicket ko
        selSalesChannelTicket_iff).1 bd hbd
      simpa only [dimSelOf, aggBucket_key] using core
    | gateway =>
      simp only [breakdownFieldOf] at hbd
      have core := (c3_core (V ++ C) selSalesChannelGateway selSalesChannel selGateway ko
        selSalesChannelGateway_iff).1 bd hbd
      simpa only [dimSelOf, aggBucket_key] using core

theorem c3_none_aux (V C : List AttendeeRow) (view dim : ReportDim) (hvd : view ≠ dim) :
    ∀ r ∈ viewRowsOf view (generateReport V C),
      (breakdownFieldOf dim r = none ↔ ¬∃ a ∈ V ++ C, (dimSelOf dim a).isSome) := by
  intro r hr
  cases view with
  | ticketType =>
    simp only [viewRowsOf] at hr
    rw [generateReport_rows] at hr
    obtain ⟨ko, hko, rfl⟩ := List.mem_map.mp hr
    cases dim with
    | ticketType => exact absurd rfl hvd
    | gateway =>
      simp only [breakdownFieldOf, dimSelOf]
      exact (c3_core (V ++ C) selTicketGateway selTicket selGateway ko
        selTicketGateway_iff).2
    | salesChannel =>
      simp only [breakdownFieldOf, dimSelOf]
      exact (c3_core (V ++ C) selTicketSalesChannel selTicket selSalesChannel ko
        selTicketSalesChannel_iff).2
  | gateway =>
    simp only [viewRowsOf] at hr
    rw [generateReport_gatewayRows] at hr
    obtain ⟨ko, hko, rfl⟩ := List.mem_map.mp hr
    cases dim with
    | gateway => exact absurd rfl hvd
    | ticketType =>
      simp only [breakdownFieldOf, dimSelOf]
      exact (c3_core (V ++ C) selGatewayTicket selGateway selTicket ko
        selGatewayTicket_iff).2
    | salesChannel =>
      simp only [breakdownFieldOf, dimSelOf]
      exact (c3_core (V ++ C) selGatewaySalesChannel selGateway selSalesChannel ko
        selGatewaySalesChannel_iff).2
  | salesChannel =>
    simp only [viewRowsOf] at hr
    rw [generateReport_salesChannelRows] at hr
    obtain ⟨ko, hko, rfl⟩ := List.mem_map.mp hr
    cases dim with
    | salesChannel => exact absurd rfl hvd
    | ticketType =>
      simp only [breakdownFieldOf, dimSelOf]
      exact (c3_core (V ++ C) selSalesChannelTicket selSalesChannel selTicket ko
        selSalesChannelTicket_iff).2
    | gateway =>
      simp only [breakdownFieldOf, dimSelOf]
      exact (c3_core (V ++ C) selSalesChannelGateway selSalesChannel selGateway ko
        selSalesChannelGateway_iff).2

/-- C3. In every view, any two primary rows carrying a breakdown array for
the same dimension have identical key sequences (hence equal lengths); that
key sequence is exactly the ascending sorted duplicate-free list of all
values observed for that dimension anywhere in the input; an entry whose
(row key, entry key) cell received no record is the all-zero bucket; and the
breakdown field is omitted (`none`, never an empty array) exactly when the
dimension's global value set is empty. -/
theorem c3_density_invariant (V C : List AttendeeRow) (view dim : ReportDim)
    (hvd : view ≠ dim) :
    (∀ r ∈ viewRowsOf view (generateReport V C),
      ∀ r' ∈ viewRowsOf view (generateReport V C),
      ∀ bd bd', breakdownFieldOf dim r = some bd → breakdownFieldOf dim r' = some bd' →
        bd.map Bucket.key = bd'.map Bucket.key ∧ bd.length = bd'.length)
    ∧ (∀ r ∈ viewRowsOf view (generateReport V C), ∀ bd,
        breakdownFieldOf dim r = some bd →
          bd.map Bucket.key = sortedKeysOf (dimSelOf dim) (V ++ C)
          ∧ (bd.map Bucket.key).Sorted (fun x y : String => x ≤ y)
          ∧ (bd.map Bucket.key).Nodup
          ∧ (∀ g, g ∈ bd.map Bucket.key ↔ ∃ a ∈ V ++ C, dimSelOf dim a = some g)
          ∧ (∀ e ∈ bd, (∀ a ∈ V ++ C, ¬(dimSelOf view a = some r.bucket.key
              ∧ dimSelOf dim a = some e.key)) → e = zeroBucket e.key))
    ∧ (∀ r ∈ viewRowsOf view (generateReport V C),
        (breakdownFieldOf dim r = none ↔ ¬∃ a ∈ V ++ C, (dimSelOf dim a).isSome)) := by
  refine ⟨?_, c3_main_aux V C view dim hvd, c3_none_aux V C view dim hvd⟩
  intro r hr r' hr' bd bd' h h'
  have k1 := (c3_main_aux V C view dim hvd r hr bd h).1
  have k2 := (c3_main_aux V C view dim hvd r' hr' bd' h').1
  have hk : bd.map Bucket.key = bd'.map Bucket.key := k1.trans k2.symm
  refine ⟨hk, ?_⟩
  have hlen := congrArg List.length hk
  simpa using hlen

/-- The dense gateway breakdown the GA ticket row receives for inputs
`[recGA]`, `[recVIP]` — PayPal appears as an all-zero bucket. -/
def gaGatewayBd : List Bucket :=
  [zeroBucket "PayPal",
   { key := "Stripe", totalPaid := 100, validCount := 1, cancelledCount := 0
     fees := initZeroNumericFields }]

/-- The GA ticket-type row produced for inputs `[recGA]`, `[recVIP]`. -/
def gaRow : ReportRow :=
  { bucket := { key := "GA", totalPaid := 100, validCount := 1, cancelledCount := 0
                fees := initZeroNumericFields }
    gatewayBreakdown := some gaGatewayBd
    salesChannelBreakdown :=
      some [{ key := "Online", totalPaid := 100, validCount := 1, cancelledCount := 0
              fees := initZeroNumericFields }]
    ticketTypeBreakdown := none }

/-- The VIP ticket-type row produced for inputs `[recGA]`, `[recVIP]`. -/
def vipRow : ReportRow :=
  { bucket := { key := "VIP", totalPaid := 200, validCount := 0, cancelledCount := 1
                fees := initZeroNumericFields }
    gatewayBreakdown :=
      some [{ key := "PayPal", totalPaid := 200, validCount := 0, cancelledCount := 1
              fees := initZeroNumericFields },
            zeroBucket "Stripe"]
    salesChannelBreakdown := some [zeroBucket "Online"]
    ticketTypeBreakdown := none }

theorem c3_density_invariant_witness :
    gaGatewayBd.map Bucket.key = ["PayPal", "Stripe"]
    ∧ zeroBucket "PayPal" = zeroBucket (zeroBucket "PayPal").key := by
  have hrows : (generateReport [recGA] [recVIP]).rows = [gaRow, vipRow] := by decide
  have hmem : gaRow ∈ viewRowsOf ReportDim.ticketType (generateReport [recGA] [recVIP]) := by
    simp only [viewRowsOf]
    rw [hrows]
    exact List.mem_cons_self _ _
  have h := (c3_density_invariant [recGA] [recVIP] ReportDim.ticketType ReportDim.gateway
    (by decide)).2.1 gaRow hmem gaGatewayBd rfl
  constructor
  · exact h.1.trans (by decide)
  · exact h.2.2.2.2 (zeroBucket "PayPal") (by decide) (by decide)
